import Mathlib

/-!
# Snapshot version log of the interactive map (`MarkerManager`)

A shallow embedding of `src/src/core/markermanager.cpp`: the in-memory history
of map snapshots, the "current view" cursor and the working marker map, with
the operations `addMarker`, `deleteMarker`, `restoreSnapshot`,
`restoreLatestSnapshot`, `createSnapshot`, `loadFromSnapshots`,
`currentMarkers` and `findMarker`; of the JSON form of a marker
(`src/src/data/marker.cpp`, `src/src/network/apiclient.cpp`); of the request
handler, the reading of the request line and the persistence of the server
(`src/backend/server.cpp`); and of the two handlers of the window that mirror
an edit to the server (`src/mainwindow.cpp`).

Conventions of the embedding.

* Every member function becomes a pure function on the record of the three
  data members; a `bool` result is returned next to the new state.
* Qt signals (`markersChanged`, `currentSnapshotChanged`, `snapshotCreated`)
  and the `qDebug`/`qWarning` output do not influence the data members and are
  left out; the slots connected to them belong to the window, not to the manager.
* `int` / `qsizetype` indices are modelled by `Int`; a `QList` cannot hold
  `2^31` snapshots in practice, so no wrap-around is modelled.
* The wall clock read by `createSnapshotInternal` is an explicit input.
* The text that `QUrl` puts on the request line for a path is an explicit input
  of the window handlers (`encodePath`); `WritesPlainPaths` says what is assumed
  of it.
-/

/-! ## Qt value types -/

/-- A `QString`: its sequence of UTF-16 code units. `operator<` on `QString`
compares code units lexicographically, which is the order of `List Nat`. -/
abbrev QString := List Nat

/-- UTF-16 code units of a string literal of the source. -/
def utf16 (s : String) : QString :=
  s.toList.flatMap fun c =>
    if c.toNat < 65536 then [c.toNat]
    else [55296 + (c.toNat - 65536) / 1024, 56320 + (c.toNat - 65536) % 1024]

/-- `QString::left(n)`: the first `n` code units. -/
def QString.left (s : QString) (n : Nat) : QString := s.take n

/-- A `QDateTime`, carried as validity flag and milliseconds since the epoch. -/
structure QDateTime where
  valid : Bool
  msecs : Int
deriving DecidableEq, Repr

/-- A `QColor`, carried as validity flag and its four channels. -/
structure QColor where
  valid : Bool
  alpha : Nat
  red : Nat
  green : Nat
  blue : Nat
deriving DecidableEq, Repr

/-- A `QPointF`. The two `double` coordinates are carried by their IEEE-754
bit patterns; the version log never computes with them. -/
structure QPointF where
  x : Nat
  y : Nat
deriving DecidableEq, Repr

/-! ## Marker and MapSnapshot -/

/-- The data members of `Marker` (`marker.cpp`), named by their accessors. -/
structure Marker where
  id : QString
  position : QPointF
  note : QString
  color : QColor
  createTime : QDateTime
  createdBy : QString
deriving DecidableEq, Repr

/-- Modelled from the spec: the default constructor `Marker()` is declared in
the absent `marker.h`. The sources call its result the invalid marker and test
validity by `id().isEmpty()`, so every member is default-constructed. -/
def Marker.invalid : Marker :=
  { id := [], position := ⟨0, 0⟩, note := [], color := ⟨false, 0, 0, 0, 0⟩,
    createTime := ⟨false, 0⟩, createdBy := [] }

/-- The data members of `MapSnapshot` as the spec lists them. -/
structure MapSnapshot where
  snapshotId : QString
  timestamp : QDateTime
  markers : List Marker
  description : QString
deriving DecidableEq, Repr

/-- What one snapshot construction reads from outside the manager: the clock
(`QDateTime::currentDateTime()`) and the identifier the snapshot is given. -/
structure Env where
  now : QDateTime
  snapshotId : QString
deriving DecidableEq, Repr

/-- Modelled from the spec: the constructor
`MapSnapshot(timestamp, markers, description)` lives in the absent
`mapsnapshot.cpp`. It stores its three arguments; the "derived/assigned"
`snapshotId` is taken from the environment. -/
def MapSnapshot.create (e : Env) (markers : List Marker) (description : QString) :
    MapSnapshot :=
  { snapshotId := e.snapshotId, timestamp := e.now, markers := markers,
    description := description }

/-! ## QMap -/

/-- Modelled from the spec: the member `m_currentMarkers` is declared in the
absent `markermanager.h`; the code uses it as a container keyed by marker id
(`operator[]`, `contains`, `remove`, `clear`, `values`). It is modelled as a
`QMap`: bindings kept in ascending key order, one binding per key. -/
abbrev QMap (K V : Type) := List (K × V)

namespace QMap

variable {K V : Type} [LinearOrder K]

/-- The assignment `m[k] = v`: replaces the binding of `k` or adds it in key order. -/
def insert : QMap K V → K → V → QMap K V
  | [], k, v => [(k, v)]
  | (k', v') :: rest, k, v =>
      if k < k' then (k, v) :: (k', v') :: rest
      else if k = k' then (k, v) :: rest
      else (k', v') :: insert rest k v

/-- The test `m.contains(k)`. -/
def contains (m : QMap K V) (k : K) : Bool := m.any fun p => decide (p.1 = k)

/-- The call `m.remove(k)`. -/
def remove (m : QMap K V) (k : K) : QMap K V := m.filter fun p => decide (p.1 ≠ k)

/-- The call `m.values()`: the values in ascending key order. -/
def values (m : QMap K V) : List V := m.map Prod.snd

/-- The value bound to `k`, if any. -/
def find? (m : QMap K V) (k : K) : Option V :=
  (List.find? (fun p => decide (p.1 = k)) m).map Prod.snd

/-- The read `m[k]` on a non-const map: yields the value of `k`; a missing key
is first bound to the default value `d`. Returns the value and the map. -/
def subscript (m : QMap K V) (k : K) (d : V) : V × QMap K V :=
  match find? m k with
  | some v => (v, m)
  | none => (d, insert m k d)

end QMap

/-- The loop `m.clear(); for (marker : markers) m[marker.id()] = marker;`. -/
def markersToMap (markers : List Marker) : QMap QString Marker :=
  markers.foldl (fun m marker => QMap.insert m marker.id marker) []

/-! ## MarkerManager -/

/-- The data members of `MarkerManager`. -/
structure MarkerManager where
  m_snapshots : List MapSnapshot
  m_currentSnapshotIndex : Int
  m_currentMarkers : QMap QString Marker
deriving DecidableEq, Repr

namespace MarkerManager

/-- The constructor: no snapshots, index `-1`, no markers. -/
def init : MarkerManager :=
  { m_snapshots := [], m_currentSnapshotIndex := -1, m_currentMarkers := [] }

/-- The guard of `addMarker` and `deleteMarker`:
`m_currentSnapshotIndex >= 0 && m_currentSnapshotIndex < m_snapshots.size() - 1`. -/
def viewingHistory (s : MarkerManager) : Prop :=
  s.m_currentSnapshotIndex ≥ 0 ∧ s.m_currentSnapshotIndex < (s.m_snapshots.length : Int) - 1

instance (s : MarkerManager) : Decidable (viewingHistory s) := by
  unfold viewingHistory; infer_instance

/-- `MarkerManager::restoreSnapshot`. -/
def restoreSnapshot (s : MarkerManager) (index : Int) : Bool × MarkerManager :=
  if h : index < 0 ∨ index ≥ (s.m_snapshots.length : Int) then (false, s)
  else
    let snapshot := s.m_snapshots.get ⟨index.toNat, by omega⟩
    (true, { s with m_currentSnapshotIndex := index
                    m_currentMarkers := markersToMap snapshot.markers })

/-- `MarkerManager::restoreLatestSnapshot`. -/
def restoreLatestSnapshot (s : MarkerManager) : MarkerManager :=
  if s.m_snapshots.isEmpty then s
  else (restoreSnapshot s ((s.m_snapshots.length : Int) - 1)).2

/-- `MarkerManager::createSnapshotInternal`. -/
def createSnapshotInternal (s : MarkerManager) (e : Env) (description : QString) :
    MapSnapshot :=
  MapSnapshot.create e (QMap.values s.m_currentMarkers) description

/-- `MarkerManager::createSnapshot`. -/
def createSnapshot (s : MarkerManager) (e : Env) (description : QString) : MarkerManager :=
  let snapshot := createSnapshotInternal s e description
  let snapshots := s.m_snapshots ++ [snapshot]
  { m_snapshots := snapshots
    m_currentSnapshotIndex := (snapshots.length : Int) - 1
    m_currentMarkers := markersToMap snapshot.markers }

/-- The description text built by `addMarker` and `deleteMarker`:
`QString(verb).arg(note.left(20))`, followed by the operator when it is given. -/
def describe (verb : String) (note : QString) (actor : QString) : QString :=
  utf16 verb ++ note.left 20 ++
    (if actor.isEmpty then [] else utf16 " (操作者: " ++ actor ++ utf16 ")")

/-- `MarkerManager::addMarker`. -/
def addMarker (s : MarkerManager) (marker : Marker) (createdBy : QString) (e : Env) :
    Bool × MarkerManager :=
  if viewingHistory s then (false, s)
  else
    let s1 := if !s.m_snapshots.isEmpty then restoreLatestSnapshot s else s
    let s2 := { s1 with m_currentMarkers := QMap.insert s1.m_currentMarkers marker.id marker }
    (true, createSnapshot s2 e (describe "添加标记: " marker.note createdBy))

/-- `MarkerManager::deleteMarker`. -/
def deleteMarker (s : MarkerManager) (markerId : QString) (deletedBy : QString) (e : Env) :
    Bool × MarkerManager :=
  if !QMap.contains s.m_currentMarkers markerId then (false, s)
  else if viewingHistory s then (false, s)
  else
    let s1 := if !s.m_snapshots.isEmpty then restoreLatestSnapshot s else s
    let read := QMap.subscript s1.m_currentMarkers markerId Marker.invalid
    let s2 := { s1 with m_currentMarkers := QMap.remove read.2 markerId }
    (true, createSnapshot s2 e (describe "删除标记: " read.1.note deletedBy))

/-- `MarkerManager::currentMarkers`. -/
def currentMarkers (s : MarkerManager) : List Marker :=
  if h : s.m_currentSnapshotIndex ≥ 0 ∧
      s.m_currentSnapshotIndex < (s.m_snapshots.length : Int) then
    (s.m_snapshots.get ⟨s.m_currentSnapshotIndex.toNat, by omega⟩).markers
  else QMap.values s.m_currentMarkers

/-- `MarkerManager::loadFromSnapshots`. -/
def loadFromSnapshots (s : MarkerManager) (snapshots : List MapSnapshot) : MarkerManager :=
  let s1 := { s with m_snapshots := snapshots }
  if !s1.m_snapshots.isEmpty then restoreLatestSnapshot s1 else s1

/-! ### The states of the version log -/

/-- State `Browsing`: the cursor is a valid index below the last one. -/
def Browsing (s : MarkerManager) : Prop :=
  0 ≤ s.m_currentSnapshotIndex ∧ s.m_currentSnapshotIndex < (s.m_snapshots.length : Int) - 1

/-- State `AtTip`: the cursor equals `len(history) - 1`. Read literally this also
holds of the constructed manager (cursor `-1`, empty history). -/
def AtTip (s : MarkerManager) : Prop :=
  s.m_currentSnapshotIndex = (s.m_snapshots.length : Int) - 1

instance (s : MarkerManager) : Decidable (Browsing s) := by
  unfold Browsing; infer_instance

instance (s : MarkerManager) : Decidable (AtTip s) := by
  unfold AtTip; infer_instance

/-- The states the program can be in: everything obtained from the constructed
manager by the public operations with arbitrary arguments. -/
inductive Reachable : MarkerManager → Prop
  | start : Reachable init
  | add (s : MarkerManager) (marker : Marker) (createdBy : QString) (e : Env) :
      Reachable s → Reachable (addMarker s marker createdBy e).2
  | delete (s : MarkerManager) (markerId : QString) (deletedBy : QString) (e : Env) :
      Reachable s → Reachable (deleteMarker s markerId deletedBy e).2
  | restore (s : MarkerManager) (index : Int) :
      Reachable s → Reachable (restoreSnapshot s index).2
  | restoreLatest (s : MarkerManager) :
      Reachable s → Reachable (restoreLatestSnapshot s)
  | load (s : MarkerManager) (snapshots : List MapSnapshot) :
      Reachable s → Reachable (loadFromSnapshots s snapshots)

end MarkerManager

/-! ## Sample data -/

/-- A sample marker with the given id code unit and note. -/
def sampleMarker (i : Nat) : Marker :=
  { id := [109, i], position := ⟨i, i⟩, note := [110, i], color := ⟨true, 65535, 65535, 0, 0⟩,
    createTime := ⟨true, 1000 * i⟩, createdBy := [] }

/-- A sample environment reading. -/
def sampleEnv (i : Nat) : Env := { now := ⟨true, 1000 * i⟩, snapshotId := [115, i] }

/-- The log after `addMarker(sampleMarker 1)` and `addMarker(sampleMarker 2)` from the
constructed manager. -/
def sampleLog2 : MarkerManager :=
  (MarkerManager.addMarker
    (MarkerManager.addMarker MarkerManager.init (sampleMarker 1) [] (sampleEnv 1)).2
    (sampleMarker 2) [] (sampleEnv 2)).2

/-- The log `sampleLog2` after `restoreSnapshot(0)`: two snapshots, cursor on the first. -/
def sampleBrowsing : MarkerManager := (MarkerManager.restoreSnapshot sampleLog2 0).2

/-- The log obtained by `addMarker(sampleMarker 1)` on the constructed manager followed
by `loadFromSnapshots` with an empty list (a sync from a server without snapshots). -/
def sampleEmptied : MarkerManager :=
  MarkerManager.loadFromSnapshots
    (MarkerManager.addMarker MarkerManager.init (sampleMarker 1) [] (sampleEnv 1)).2 []

/-! ## Lookup in the manager -/

namespace MarkerManager

/-- `MarkerManager::findMarker` (a `const` member: `m_currentMarkers[markerId]` reads
the stored value and inserts nothing). -/
def findMarker (s : MarkerManager) (markerId : QString) : Marker :=
  if QMap.contains s.m_currentMarkers markerId then
    (QMap.find? s.m_currentMarkers markerId).getD Marker.invalid
  else if h : s.m_currentSnapshotIndex ≥ 0 ∧
      s.m_currentSnapshotIndex < (s.m_snapshots.length : Int) then
    match (s.m_snapshots.get ⟨s.m_currentSnapshotIndex.toNat, by omega⟩).markers.find?
        (fun marker => decide (marker.id = markerId)) with
    | some marker => marker
    | none => Marker.invalid
  else Marker.invalid

end MarkerManager

/-! ## Texts written and read by Qt

The characters Qt produces for a colour and for a date are part of what
`Marker::toJson` stores, so the two writers are modelled in full. The two
readers accept more spellings than the writers produce; only the spelling of
the writer is modelled, every other text is read as an invalid value. -/

/-- The lower-case hexadecimal digit of a value below 16, as a code unit. -/
def hexDigit (v : Nat) : Nat := if v < 10 then 48 + v else 87 + v

/-- The value of a hexadecimal digit given as a code unit. -/
def hexValue? (c : Nat) : Option Nat :=
  if 48 ≤ c ∧ c ≤ 57 then some (c - 48)
  else if 97 ≤ c ∧ c ≤ 102 then some (c - 87)
  else if 65 ≤ c ∧ c ≤ 70 then some (c - 55)
  else none

/-- The value of a decimal digit given as a code unit. -/
def digitValue? (c : Nat) : Option Nat :=
  if 48 ≤ c ∧ c ≤ 57 then some (c - 48) else none

/-- The decimal number spelled by a list of code units, all of them digits. -/
def digitsValue? : List Nat → Option Nat
  | [] => none
  | cs => cs.foldl (fun acc c => match acc, digitValue? c with
      | some a, some d => some (10 * a + d)
      | _, _ => none) (some 0)

/-- The last `width` decimal digits of `n`, zero padded, as code units. -/
def padDigits : Nat → Nat → QString
  | 0, _ => []
  | width + 1, n => padDigits width (n / 10) ++ [48 + n % 10]

/-- The invalid colour, as in `Marker.invalid`. -/
def QColor.invalid : QColor := { valid := false, alpha := 0, red := 0, green := 0, blue := 0 }

/-- The invalid time, as in `Marker.invalid`. -/
def QDateTime.invalid : QDateTime := { valid := false, msecs := 0 }

/-- `QColor::name()`: `#RRGGBB` from the upper eight bits of the three 16-bit
colour channels; alpha and validity are not written. -/
def QColor.name (c : QColor) : QString :=
  let r := c.red / 256 % 256
  let g := c.green / 256 % 256
  let b := c.blue / 256 % 256
  [35, hexDigit (r / 16), hexDigit (r % 16), hexDigit (g / 16), hexDigit (g % 16),
    hexDigit (b / 16), hexDigit (b % 16)]

/-- The constructor `QColor(const QString&)` on a text of the form `#RRGGBB`: an
opaque colour whose 16-bit channels are the 8-bit values times `0x101`. Every
other text yields the invalid colour (Qt also reads other hexadecimal widths
and colour keywords; those are outside this model). -/
def QColor.fromName (s : QString) : QColor :=
  match s with
  | [35, r1, r0, g1, g0, b1, b0] =>
    match hexValue? r1, hexValue? r0, hexValue? g1, hexValue? g0, hexValue? b1, hexValue? b0 with
    | some r1, some r0, some g1, some g0, some b1, some b0 =>
      { valid := true, alpha := 65535, red := (16 * r1 + r0) * 257,
        green := (16 * g1 + g0) * 257, blue := (16 * b1 + b0) * 257 }
    | _, _, _, _, _, _ => QColor.invalid
  | _ => QColor.invalid

/-- Year, month and day of the day number `z` counted from 1970-01-01 in the
proleptic Gregorian calendar. -/
def civilFromDays (z : Int) : Int × Int × Int :=
  let z := z + 719468
  let era := z / 146097
  let doe := z - era * 146097
  let yoe := (doe - doe / 1460 + doe / 36524 - doe / 146096) / 365
  let y := yoe + era * 400
  let doy := doe - (365 * yoe + yoe / 4 - yoe / 100)
  let mp := (5 * doy + 2) / 153
  let d := doy - (153 * mp + 2) / 5 + 1
  let m := if mp < 10 then mp + 3 else mp - 9
  (if m ≤ 2 then y + 1 else y, m, d)

/-- The day number counted from 1970-01-01 of a year, month and day. -/
def daysFromCivil (y m d : Int) : Int :=
  let y := if m ≤ 2 then y - 1 else y
  let era := y / 400
  let yoe := y - era * 400
  let doy := (153 * (if m > 2 then m - 3 else m + 9) + 2) / 5 + d - 1
  let doe := yoe * 365 + yoe / 4 - yoe / 100 + doy
  era * 146097 + doe - 719468

/-- `QDateTime::toString(Qt::ISODate)` of a local time: `yyyy-MM-ddTHH:mm:ss`, whole
seconds only. An invalid time, or a year outside 0..9999, gives the empty text.
Time zones are not modelled: `msecs` counts on the local clock. -/
def QDateTime.toStringISODate (t : QDateTime) : QString :=
  if !t.valid then []
  else
    let secs := t.msecs / 1000
    let ymd := civilFromDays (secs / 86400)
    let tod := (secs % 86400).toNat
    if ymd.1 < 0 ∨ ymd.1 > 9999 then []
    else
      padDigits 4 ymd.1.toNat ++ [45] ++ padDigits 2 ymd.2.1.toNat ++ [45] ++
        padDigits 2 ymd.2.2.toNat ++ [84] ++ padDigits 2 (tod / 3600) ++ [58] ++
        padDigits 2 (tod / 60 % 60) ++ [58] ++ padDigits 2 (tod % 60)

/-- `QDateTime::fromString(text, Qt::ISODate)` on a text of the form
`yyyy-MM-ddTHH:mm:ss` naming an existing date and time: that local time. Every
other text yields the invalid time (Qt also reads fractions of a second, zone
offsets and date-only texts; those are outside this model). -/
def QDateTime.fromStringISODate (s : QString) : QDateTime :=
  match s with
  | [y3, y2, y1, y0, 45, m1, m0, 45, d1, d0, 84, h1, h0, 58, n1, n0, 58, s1, s0] =>
    match digitsValue? [y3, y2, y1, y0], digitsValue? [m1, m0], digitsValue? [d1, d0],
        digitsValue? [h1, h0], digitsValue? [n1, n0], digitsValue? [s1, s0] with
    | some y, some m, some d, some h, some n, some sec =>
      let days := daysFromCivil y m d
      if 1 ≤ m ∧ m ≤ 12 ∧ 1 ≤ d ∧ civilFromDays days = ((y : Int), (m : Int), (d : Int)) ∧
          h < 24 ∧ n < 60 ∧ sec < 60 then
        { valid := true, msecs := (days * 86400 + (h * 3600 + n * 60 + sec : Nat)) * 1000 }
      else QDateTime.invalid
    | _, _, _, _, _, _ => QDateTime.invalid
  | _ => QDateTime.invalid

/-! ## JSON -/

/-- A `QJsonValue`. A number carries the bit pattern of its `double`. -/
inductive QJsonValue where
  | undefined
  | null
  | bool (b : Bool)
  | double (bits : Nat)
  | string (s : QString)
  | array (items : List QJsonValue)
  | object (members : List (QString × QJsonValue))

/-- A `QJsonObject`: members in ascending key order, one per key. -/
abbrev QJsonObject := QMap QString QJsonValue

/-- A `QJsonArray`. -/
abbrev QJsonArray := List QJsonValue

namespace QJsonValue

/-- `QJsonValue::toString()`: the text of a string value, else the empty text. -/
def toString : QJsonValue → QString
  | string s => s
  | _ => []

/-- `QJsonValue::toDouble()`: the number of a numeric value, else `0.0`. -/
def toDouble : QJsonValue → Nat
  | double bits => bits
  | _ => 0

/-- `QJsonValue::toObject()`: the object of an object value, else the empty object. -/
def toObject : QJsonValue → QJsonObject
  | object members => members
  | _ => []

/-- `QJsonValue::toArray()`: the array of an array value, else the empty array. -/
def toArray : QJsonValue → QJsonArray
  | array items => items
  | _ => []

end QJsonValue

/-- The read `json[key]` on a `const QJsonObject`: the member, else `Undefined`. -/
def QJsonObject.value (json : QJsonObject) (key : String) : QJsonValue :=
  (QMap.find? json (utf16 key)).getD QJsonValue.undefined

/-- The assignment `obj[key] = value` on a `QJsonObject`. -/
def QJsonObject.set (obj : QJsonObject) (key : String) (value : QJsonValue) : QJsonObject :=
  QMap.insert obj (utf16 key) value

/-- What `QJsonDocument::fromJson` returns for a byte sequence: the null document
(no valid JSON, or a top level that is neither array nor object), an array or
an object. `QJsonDocument::toJson` followed by `fromJson` is taken to return the
document written. -/
inductive QJsonDocument where
  | null
  | array (items : QJsonArray)
  | object (members : QJsonObject)

/-- `QJsonDocument::isArray()`. -/
def QJsonDocument.isArray : QJsonDocument → Bool
  | array _ => true
  | _ => false

/-- `QJsonDocument::isObject()`. -/
def QJsonDocument.isObject : QJsonDocument → Bool
  | object _ => true
  | _ => false

/-- `QJsonDocument::array()`. -/
def QJsonDocument.toArray : QJsonDocument → QJsonArray
  | array items => items
  | _ => []

/-- `QJsonDocument::object()`. -/
def QJsonDocument.toObject : QJsonDocument → QJsonObject
  | object members => members
  | _ => []

/-- `Marker::toJson`. -/
def Marker.toJson (m : Marker) : QJsonObject :=
  let obj : QJsonObject := []
  let obj := obj.set "id" (.string m.id)
  let obj := obj.set "x" (.double m.position.x)
  let obj := obj.set "y" (.double m.position.y)
  let obj := obj.set "note" (.string m.note)
  let obj := obj.set "color" (.string m.color.name)
  let obj := obj.set "createTime" (.string m.createTime.toStringISODate)
  let obj := obj.set "createdBy" (.string m.createdBy)
  obj

/-- `Marker::fromJson`. -/
def Marker.fromJson (json : QJsonObject) : Marker :=
  { id := (json.value "id").toString
    position := ⟨(json.value "x").toDouble, (json.value "y").toDouble⟩
    note := (json.value "note").toString
    color := QColor.fromName (json.value "color").toString
    createTime := QDateTime.fromStringISODate (json.value "createTime").toString
    createdBy := (json.value "createdBy").toString }

/-- Modelled from the spec: `MapSnapshot::toJson` lives in the absent
`mapsnapshot.cpp`. The spec gives the shape
`{snapshotId, timestamp, markers: [Marker...], description}`; the markers are
written by `Marker::toJson`, the timestamp as the marker's `createTime` is. -/
def MapSnapshot.toJson (s : MapSnapshot) : QJsonObject :=
  let obj : QJsonObject := []
  let obj := obj.set "snapshotId" (.string s.snapshotId)
  let obj := obj.set "timestamp" (.string s.timestamp.toStringISODate)
  let obj := obj.set "markers" (.array (s.markers.map fun m => .object m.toJson))
  let obj := obj.set "description" (.string s.description)
  obj

/-- Modelled from the spec: `MapSnapshot::fromJson` lives in the absent
`mapsnapshot.cpp`. It reads the four members of the shape the spec gives, the
markers through `Marker::fromJson`. -/
def MapSnapshot.fromJson (json : QJsonObject) : MapSnapshot :=
  { snapshotId := (json.value "snapshotId").toString
    timestamp := QDateTime.fromStringISODate (json.value "timestamp").toString
    markers := (json.value "markers").toArray.map fun v => Marker.fromJson v.toObject
    description := (json.value "description").toString }

/-- The JSON object `ApiClient::addMarker` builds and posts (`apiclient.cpp`),
written from the accessors of the marker. -/
def ApiClient.addMarkerJson (marker : Marker) : QJsonObject :=
  let json : QJsonObject := []
  let json := json.set "id" (.string marker.id)
  let json := json.set "x" (.double marker.position.x)
  let json := json.set "y" (.double marker.position.y)
  let json := json.set "note" (.string marker.note)
  let json := json.set "color" (.string marker.color.name)
  let json := json.set "createTime" (.string marker.createTime.toStringISODate)
  let json := json.set "createdBy" (.string marker.createdBy)
  json

/-! ## The server (`backend/server.cpp`) -/

/-- What a response carries after its status line and headers: the bytes given to
`sendResponse`, the object given to `sendJsonResponse` or the array given to
`sendJsonArrayResponse`. -/
inductive Payload where
  | text (data : QString)
  | object (json : QJsonObject)
  | array (json : QJsonArray)

/-- A response written to the socket: status code and payload. -/
structure Response where
  statusCode : Nat
  payload : Payload

/-- The state of `HttpServer` that requests read and write: the member
`m_snapshots` and the document held by the file named `m_dataFile` (`none` while
the file does not exist). Opening the file is taken to succeed. -/
structure HttpServer where
  m_snapshots : List MapSnapshot
  dataFile : Option QJsonDocument

namespace HttpServer

/-- `HttpServer::saveData`. -/
def saveData (s : HttpServer) : HttpServer :=
  let snapshotArray : QJsonArray := s.m_snapshots.map fun snapshot => .object snapshot.toJson
  { s with dataFile := some (.array snapshotArray) }

/-- `HttpServer::loadData`. -/
def loadData (s : HttpServer) : HttpServer :=
  match s.dataFile with
  | none => s
  | some doc =>
    if !doc.isArray then s
    else { s with m_snapshots := doc.toArray.map fun value => MapSnapshot.fromJson value.toObject }

/-- The constructor `HttpServer::HttpServer` of a server started on the data file
`dataFile`: `m_snapshots` starts empty and `loadData()` is called. -/
def construct (dataFile : Option QJsonDocument) : HttpServer :=
  loadData { m_snapshots := [], dataFile := dataFile }

/-- The loop of the DELETE branch: the first marker whose id is `markerId`, and the
list without it; `none` when the loop ends with `found == false`. -/
def removeFirst (markerId : QString) : List Marker → Option (Marker × List Marker)
  | [] => none
  | marker :: rest =>
    if marker.id = markerId then some (marker, rest)
    else (removeFirst markerId rest).map fun r => (r.1, marker :: r.2)

/-- `HttpServer::handleRequest`. The argument `body` is the document that
`QJsonDocument::fromJson(body)` returns for the request body; the returned
response is the one written to the socket. -/
def handleRequest (s : HttpServer) (method path : QString) (body : QJsonDocument) (e : Env) :
    Response × HttpServer :=
  if method = utf16 "GET" ∧ path = utf16 "/api/map/snapshots" then
    (⟨200, .array (s.m_snapshots.map fun snapshot => .object snapshot.toJson)⟩, s)
  else if method = utf16 "POST" ∧ path = utf16 "/api/map/markers" then
    if !body.isObject then (⟨400, .text (utf16 "Invalid JSON")⟩, s)
    else
      let marker := Marker.fromJson body.toObject
      let currentMarkers :=
        (match s.m_snapshots.getLast? with
          | some last => last.markers
          | none => []) ++ [marker]
      let description := utf16 "添加标记: " ++ marker.note.left 20
      let newSnapshot := MapSnapshot.create e currentMarkers description
      (⟨201, .object marker.toJson⟩,
        saveData { s with m_snapshots := s.m_snapshots ++ [newSnapshot] })
  else if method = utf16 "DELETE" ∧ (utf16 "/api/map/markers/").isPrefixOf path then
    let markerId := path.drop (utf16 "/api/map/markers/").length
    match s.m_snapshots.getLast? with
    | none => (⟨404, .text (utf16 "No snapshots found")⟩, s)
    | some last =>
      match removeFirst markerId last.markers with
      | none => (⟨404, .text (utf16 "Marker not found")⟩, s)
      | some (deletedMarker, currentMarkers) =>
        let description := utf16 "删除标记: " ++ deletedMarker.note.left 20
        let newSnapshot := MapSnapshot.create e currentMarkers description
        (⟨200, .object (QJsonObject.set [] "markerId" (.string markerId))⟩,
          saveData { s with m_snapshots := s.m_snapshots ++ [newSnapshot] })
  else if method = utf16 "POST" ∧ path = utf16 "/api/map/snapshots/batch" then
    if !body.isArray then (⟨400, .text (utf16 "Invalid JSON array")⟩, s)
    else
      let snapshotArray := body.toArray
      let appended := snapshotArray.map fun value => MapSnapshot.fromJson value.toObject
      (⟨201, .object (QJsonObject.set [] "message"
          (.string (utf16 "Uploaded " ++ utf16 (toString snapshotArray.length) ++
            utf16 " snapshots")))⟩,
        saveData { s with m_snapshots := s.m_snapshots ++ appended })
  else (⟨404, .text (utf16 "Not Found")⟩, s)

end HttpServer

/-! ## Sample data for the server -/

/-- A sample snapshot holding the sample markers with the given numbers. -/
def sampleSnapshot (i : Nat) (markers : List Nat) : MapSnapshot :=
  MapSnapshot.create (sampleEnv i) (markers.map sampleMarker) [100, i]

/-- A server whose log holds one snapshot, with marker 1, and whose file holds that log. -/
def sampleServer : HttpServer :=
  HttpServer.saveData { m_snapshots := [sampleSnapshot 1 [1]], dataFile := none }

/-- A marker created at half past a second with a half transparent colour. -/
def sampleFineMarker : Marker :=
  { id := [109, 9], position := ⟨9, 9⟩, note := [110, 9], color := ⟨true, 32768, 65535, 0, 0⟩,
    createTime := ⟨true, 1704067200500⟩, createdBy := [] }

/-! ## Invariants used in the proofs -/

/-- A marker map as the manager builds it: keys strictly ascending, every
marker stored under its own id. -/
def MapWF (m : QMap QString Marker) : Prop :=
  m.Pairwise (fun a b => a.1 < b.1) ∧ ∀ p ∈ m, p.1 = p.2.id

/-- The working map is well formed and, whenever the cursor is a valid index,
it is the map built from the markers of the snapshot under the cursor. -/
def MarkerManager.Coherent (s : MarkerManager) : Prop :=
  MapWF s.m_currentMarkers ∧
    ∀ snap, 0 ≤ s.m_currentSnapshotIndex →
      s.m_snapshots[s.m_currentSnapshotIndex.toNat]? = some snap →
      s.m_currentMarkers = markersToMap snap.markers

/-! ## From the client to the request handler -/

/-- `QString::split(sep)` for a one-character separator, empty parts kept. -/
def QString.split (sep : Nat) : QString → List QString
  | [] => [[]]
  | c :: cs =>
    if c = sep then [] :: QString.split sep cs
    else
      match QString.split sep cs with
      | [] => [[c]]
      | part :: parts => (c :: part) :: parts

/-- `HttpServer::onRequestReady`, from the first line of the request (`lines[0]`) and
the document the request body parses to: the line is split at spaces, fewer
than two parts are answered with 400, otherwise the first part is the method
and the second part, as it stands, the path given to `handleRequest`. -/
def HttpServer.onRequestReady (s : HttpServer) (firstLine : QString) (body : QJsonDocument)
    (e : Env) : Response × HttpServer :=
  match QString.split 32 firstLine with
  | method :: path :: _ => HttpServer.handleRequest s method path body e
  | _ => (⟨400, .text (utf16 "Bad Request")⟩, s)

/-- A code unit that is an ASCII letter, a digit, `-` or `_`: the units of the ids
that `Marker::generateId` makes. -/
def idUnit (c : Nat) : Bool :=
  (97 ≤ c && c ≤ 122) || (65 ≤ c && c ≤ 90) || (48 ≤ c && c ≤ 57) || c == 45 || c == 95

/-- A code unit of a plain path: an id unit or `/`. -/
def pathUnit (c : Nat) : Bool := idUnit c || c == 47

/-- What is assumed of the text `QUrl` puts on the request line for a path (the
client hands its URL to `QNetworkRequest` as a `QUrl`): a path of plain units is
written as it is. Nothing is assumed for other paths, which QUrl may
percent-encode or cut. -/
def WritesPlainPaths (encodePath : QString → QString) : Prop :=
  ∀ path : QString, path.all pathUnit = true → encodePath path = path

/-- The first line of the request `QNetworkAccessManager` sends: verb, the path as
`QUrl` writes it, protocol version. -/
def requestLine (encodePath : QString → QString) (verb : String) (path : QString) : QString :=
  utf16 verb ++ [32] ++ encodePath path ++ utf16 " HTTP/1.1"

/-- The URL path of `buildUrl(endpoint)` for the default base URL
`http://localhost:8888/api`. -/
def ApiClient.buildPath (endpoint : QString) : QString := utf16 "/api" ++ endpoint

/-! ## The window that mirrors edits to the server (`mainwindow.cpp`) -/

/-- The markers of the newest snapshot of the client history; none for an empty history. -/
def MarkerManager.tipMarkers (s : MarkerManager) : List Marker :=
  (s.m_snapshots.getLast?.map MapSnapshot.markers).getD []

/-- The markers of the last snapshot of the server log; none for an empty log. -/
def HttpServer.lastMarkers (s : HttpServer) : List Marker :=
  (s.m_snapshots.getLast?.map MapSnapshot.markers).getD []

/-- The marker manager of a window and the server its `ApiClient` talks to. Every
request is taken to reach the server, in the order in which it was sent; its
body is taken to parse to the document the client wrote. -/
structure Session where
  client : MarkerManager
  server : HttpServer

namespace MainWindow

/-- The operator name the window passes to the manager. -/
def currentUser : QString := utf16 "当前用户"

/-- `MainWindow::onAddMarkerRequested`, from the marker that `showAddMarkerDialog`
returned: a marker with a non-empty id is added to the manager and posted by
`ApiClient::addMarker` to `buildUrl("/map/markers")`; the result of the local
`addMarker` is not looked at. The server reads the request in
`onRequestReady`. -/
def onAddMarkerRequested (encodePath : QString → QString) (w : Session) (marker : Marker)
    (clientEnv serverEnv : Env) : Session :=
  if !marker.id.isEmpty then
    { client := (MarkerManager.addMarker w.client marker currentUser clientEnv).2
      server := (HttpServer.onRequestReady w.server
        (requestLine encodePath "POST" (ApiClient.buildPath (utf16 "/map/markers")))
        (.object (ApiClient.addMarkerJson marker)) serverEnv).2 }
  else w

/-- `MainWindow::onDeleteMarkerRequested`: the marker is deleted in the manager and,
only when that returned `true`, `ApiClient::deleteMarker` sends a `DELETE` to
`buildUrl("/map/markers/<id>")`. The server reads the request in
`onRequestReady`. -/
def onDeleteMarkerRequested (encodePath : QString → QString) (w : Session)
    (markerId : QString) (clientEnv serverEnv : Env) : Session :=
  if (MarkerManager.deleteMarker w.client markerId currentUser clientEnv).1 then
    { client := (MarkerManager.deleteMarker w.client markerId currentUser clientEnv).2
      server := (HttpServer.onRequestReady w.server
        (requestLine encodePath "DELETE"
          (ApiClient.buildPath (utf16 "/map/markers/" ++ markerId)))
        .null serverEnv).2 }
  else w

end MainWindow

/-- One edit made in the window, with the clock readings of client and server. -/
inductive Edit where
  | add (marker : Marker) (clientEnv serverEnv : Env)
  | delete (markerId : QString) (clientEnv serverEnv : Env)

/-- An added marker has an id of id units only. -/
def Edit.plainId : Edit → Bool
  | .add marker _ _ => marker.id.all idUnit
  | .delete _ _ _ => true

namespace Session

/-- A freshly constructed manager next to a server with an empty log. -/
def start (dataFile : Option QJsonDocument) : Session :=
  { client := MarkerManager.init, server := { m_snapshots := [], dataFile := dataFile } }

/-- The window handles one edit. -/
def apply (encodePath : QString → QString) (w : Session) : Edit → Session
  | .add marker clientEnv serverEnv =>
    MainWindow.onAddMarkerRequested encodePath w marker clientEnv serverEnv
  | .delete markerId clientEnv serverEnv =>
    MainWindow.onDeleteMarkerRequested encodePath w markerId clientEnv serverEnv

/-- The window handles a sequence of edits. -/
def run (encodePath : QString → QString) (w : Session) (edits : List Edit) : Session :=
  edits.foldl (apply encodePath) w

/-- Every added marker has an id that is not bound in the working marker map of
the client at the time of the edit. -/
def freshAdds (encodePath : QString → QString) : Session → List Edit → Bool
  | _, [] => true
  | w, edit :: rest =>
    (match edit with
      | .add marker _ _ => !QMap.contains w.client.m_currentMarkers marker.id
      | .delete _ _ _ => true) && freshAdds encodePath (apply encodePath w edit) rest

/-- The client and the server are in step: the client is at its tip, its newest
snapshot holds the values of the working marker map, every id bound in that
map consists of id units, both histories have the same length, and the last
snapshot of the server holds, in some order, the markers of the working map as
their JSON form denotes them. -/
def InStep (w : Session) : Prop :=
  MarkerManager.Coherent w.client ∧ MarkerManager.AtTip w.client ∧
    w.client.tipMarkers = QMap.values w.client.m_currentMarkers ∧
    (∀ p ∈ w.client.m_currentMarkers, p.1.all idUnit = true) ∧
    w.client.m_snapshots.length = w.server.m_snapshots.length ∧
    List.Perm w.server.lastMarkers
      ((QMap.values w.client.m_currentMarkers).map fun m => Marker.fromJson (Marker.toJson m))

end Session

/-! ## Sample data for the window -/

/-- The upper-case hexadecimal digit of a value below 16, as a code unit. -/
def hexUpper (v : Nat) : Nat := if v < 10 then 48 + v else 55 + v

/-- A sample path writer: plain units are written as they are, every other unit
below 128 as `%` and two hexadecimal digits, as QUrl writes a space (`%20`) or
a control character; units from 128 on, which no sample has, are left as they
are. -/
def percentEncode (path : QString) : QString :=
  path.flatMap fun c =>
    if pathUnit c || decide (128 ≤ c) then [c] else [37, hexUpper (c / 16), hexUpper (c % 16)]

/-- A sample marker with the id `m1`, `m2`, ... for the digit given. -/
def plainMarker (digit : Nat) : Marker :=
  { sampleMarker digit with id := [109, 48 + digit] }

/-- Three edits: add marker `m1`, add marker `m2`, delete marker `m1`. -/
def sampleEdits : List Edit :=
  [.add (plainMarker 1) (sampleEnv 1) (sampleEnv 11),
    .add (plainMarker 2) (sampleEnv 2) (sampleEnv 12),
    .delete (plainMarker 1).id (sampleEnv 3) (sampleEnv 13)]

/-- A marker with the id `m9`, created at half past a second with a half
transparent colour. -/
def sampleStampedMarker : Marker := { sampleFineMarker with id := [109, 57] }

/-- A marker whose id `a b` has a space in it. -/
def sampleSpacedMarker : Marker := { sampleMarker 1 with id := [97, 32, 98] }

/-- Two edits: add the marker with the id `a b`, then delete it. -/
def sampleSpacedEdits : List Edit :=
  [.add sampleSpacedMarker (sampleEnv 1) (sampleEnv 11),
    .delete sampleSpacedMarker.id (sampleEnv 2) (sampleEnv 12)]

/-! ## Lemmas on QMap -/

namespace QMap

variable {K V : Type} [LinearOrder K]

theorem mem_insert {m : QMap K V} {k : K} {v : V} {p : K × V}
    (h : p ∈ insert m k v) : p = (k, v) ∨ p ∈ m := by
  induction m with
  | nil => simpa [insert] using h
  | cons hd tl ih =>
    obtain ⟨k', v'⟩ := hd
    unfold insert at h
    split_ifs at h with h1 h2
    · rcases List.mem_cons.1 h with h | h
      · exact Or.inl h
      · exact Or.inr h
    · rcases List.mem_cons.1 h with h | h
      · exact Or.inl h
      · exact Or.inr (List.mem_cons_of_mem _ h)
    · rcases List.mem_cons.1 h with h | h
      · exact Or.inr (h ▸ List.mem_cons_self _ _)
      · rcases ih h with h | h
        · exact Or.inl h
        · exact Or.inr (List.mem_cons_of_mem _ h)

theorem insert_sorted {m : QMap K V} (k : K) (v : V)
    (hm : m.Pairwise (fun a b => a.1 < b.1)) :
    (insert m k v).Pairwise (fun a b => a.1 < b.1) := by
  induction m with
  | nil => simp [insert]
  | cons hd tl ih =>
    obtain ⟨k', v'⟩ := hd
    rw [List.pairwise_cons] at hm
    obtain ⟨hlt, htl⟩ := hm
    unfold insert
    split_ifs with h1 h2
    · refine List.pairwise_cons.2 ⟨?_, List.pairwise_cons.2 ⟨hlt, htl⟩⟩
      intro q hq
      rcases List.mem_cons.1 hq with hq | hq
      · subst hq; exact h1
      · exact lt_trans h1 (hlt q hq)
    · subst h2
      exact List.pairwise_cons.2 ⟨hlt, htl⟩
    · refine List.pairwise_cons.2 ⟨?_, ih htl⟩
      intro q hq
      rcases mem_insert hq with hq | hq
      · subst hq
        exact lt_of_le_of_ne (not_lt.1 h1) (fun h => h2 h.symm)
      · exact hlt q hq

theorem insert_append_last {acc : QMap K V} (k : K) (v : V)
    (h : ∀ q ∈ acc, q.1 < k) : insert acc k v = acc ++ [(k, v)] := by
  induction acc with
  | nil => simp [insert]
  | cons hd tl ih =>
    obtain ⟨k', v'⟩ := hd
    have hk : k' < k := h (k', v') (List.mem_cons_self _ _)
    unfold insert
    rw [if_neg (lt_asymm hk), if_neg (ne_of_gt hk)]
    rw [ih (fun q hq => h q (List.mem_cons_of_mem _ hq))]
    rfl

theorem remove_sorted {m : QMap K V} (k : K)
    (hm : m.Pairwise (fun a b => a.1 < b.1)) :
    (remove m k).Pairwise (fun a b => a.1 < b.1) :=
  List.Pairwise.filter _ hm

theorem find?_isSome_of_contains {m : QMap K V} {k : K}
    (h : contains m k = true) : ∃ v, find? m k = some v := by
  induction m with
  | nil => simp [contains] at h
  | cons hd tl ih =>
    by_cases hk : hd.1 = k
    · exact ⟨hd.2, by simp [find?, List.find?, hk]⟩
    · have : contains tl k = true := by
        simpa [contains, hk] using h
      obtain ⟨v, hv⟩ := ih this
      exact ⟨v, by simpa [find?, List.find?, hk] using hv⟩

theorem subscript_of_contains {m : QMap K V} {k : K} (d : V)
    (h : contains m k = true) : (subscript m k d).2 = m := by
  obtain ⟨v, hv⟩ := find?_isSome_of_contains h
  simp [subscript, hv]

end QMap

/-! ## Lemmas on the marker map -/

theorem mapWF_nil : MapWF [] := by
  constructor
  · exact List.Pairwise.nil
  · intro p hp; cases hp

theorem mapWF_insert {m : QMap QString Marker} (marker : Marker) (h : MapWF m) :
    MapWF (QMap.insert m marker.id marker) := by
  refine ⟨QMap.insert_sorted _ _ h.1, ?_⟩
  intro p hp
  rcases QMap.mem_insert hp with hp | hp
  · subst hp; rfl
  · exact h.2 p hp

theorem mapWF_remove {m : QMap QString Marker} (k : QString) (h : MapWF m) :
    MapWF (QMap.remove m k) := by
  refine ⟨QMap.remove_sorted k h.1, ?_⟩
  intro p hp
  exact h.2 p (List.mem_of_mem_filter hp)

theorem mapWF_foldl (l : List Marker) (acc : QMap QString Marker) (h : MapWF acc) :
    MapWF (l.foldl (fun m marker => QMap.insert m marker.id marker) acc) := by
  induction l generalizing acc with
  | nil => exact h
  | cons x xs ih => exact ih _ (mapWF_insert x h)

theorem markersToMap_wf (l : List Marker) : MapWF (markersToMap l) :=
  mapWF_foldl l [] mapWF_nil

theorem foldl_values_append (rest acc : QMap QString Marker)
    (hs : (acc ++ rest).Pairwise (fun a b => a.1 < b.1))
    (hk : ∀ p ∈ rest, p.1 = p.2.id) :
    (QMap.values rest).foldl (fun m marker => QMap.insert m marker.id marker) acc
      = acc ++ rest := by
  induction rest generalizing acc with
  | nil => simp [QMap.values]
  | cons p r ih =>
    have hp : p.1 = p.2.id := hk p (List.mem_cons_self _ _)
    have hlt : ∀ q ∈ acc, q.1 < p.2.id := by
      intro q hq
      rw [← hp]
      exact (List.pairwise_append.1 hs).2.2 q hq p (List.mem_cons_self _ _)
    have hins : QMap.insert acc p.2.id p.2 = acc ++ [p] := by
      rw [QMap.insert_append_last _ _ hlt, ← hp]
    have hs2 : ((acc ++ [p]) ++ r).Pairwise (fun a b => a.1 < b.1) := by
      simpa using hs
    have := ih (acc ++ [p]) hs2 (fun q hq => hk q (List.mem_cons_of_mem _ hq))
    simp only [QMap.values, List.map_cons, List.foldl_cons] at this ⊢
    rw [hins, this]
    simp

theorem markersToMap_values {m : QMap QString Marker} (h : MapWF m) :
    markersToMap (QMap.values m) = m := by
  have := foldl_values_append m [] (by simpa using h.1) h.2
  simpa [markersToMap] using this

/-! ## Unfolding lemmas for the operations -/

namespace MarkerManager

theorem restoreSnapshot_invalid (s : MarkerManager) (index : Int)
    (h : index < 0 ∨ index ≥ (s.m_snapshots.length : Int)) :
    restoreSnapshot s index = (false, s) := by
  unfold restoreSnapshot
  rw [dif_pos h]

theorem restoreSnapshot_valid (s : MarkerManager) (index : Int) (snap : MapSnapshot)
    (h0 : 0 ≤ index) (hsnap : s.m_snapshots[index.toNat]? = some snap) :
    restoreSnapshot s index =
      (true, { m_snapshots := s.m_snapshots, m_currentSnapshotIndex := index,
               m_currentMarkers := markersToMap snap.markers }) := by
  have hlt : index.toNat < s.m_snapshots.length := by
    by_contra hc
    rw [List.getElem?_eq_none (not_lt.1 hc)] at hsnap
    cases hsnap
  have hget : s.m_snapshots.get ⟨index.toNat, hlt⟩ = snap := by
    have := List.getElem?_eq_getElem hlt
    rw [hsnap] at this
    exact (Option.some.inj this).symm
  unfold restoreSnapshot
  rw [dif_neg (by omega)]
  simp only [hget]

theorem restoreLatestSnapshot_empty (s : MarkerManager) (h : s.m_snapshots = []) :
    restoreLatestSnapshot s = s := by
  simp [restoreLatestSnapshot, h]

theorem exists_snapshot_at (s : MarkerManager) (index : Int)
    (h0 : 0 ≤ index) (h1 : index < (s.m_snapshots.length : Int)) :
    ∃ snap, s.m_snapshots[index.toNat]? = some snap := by
  have hlt : index.toNat < s.m_snapshots.length := by omega
  exact ⟨s.m_snapshots[index.toNat], List.getElem?_eq_getElem hlt⟩

end MarkerManager

/-! ## The coherence invariant -/

namespace MarkerManager

theorem coherent_init : Coherent init := by
  refine ⟨mapWF_nil, ?_⟩
  intro snap h0 _
  simp [init] at h0

theorem coherent_restoreSnapshot_valid (s : MarkerManager) (index : Int)
    (h0 : 0 ≤ index) (h1 : index < (s.m_snapshots.length : Int)) :
    Coherent (restoreSnapshot s index).2 := by
  obtain ⟨snap, hsnap⟩ := exists_snapshot_at s index h0 h1
  rw [restoreSnapshot_valid s index snap h0 hsnap]
  refine ⟨markersToMap_wf _, ?_⟩
  intro snap2 _ h2
  simp only at h2
  rw [hsnap] at h2
  cases h2
  rfl

theorem coherent_restoreSnapshot (s : MarkerManager) (index : Int) (h : Coherent s) :
    Coherent (restoreSnapshot s index).2 := by
  by_cases hv : index < 0 ∨ index ≥ (s.m_snapshots.length : Int)
  · rw [restoreSnapshot_invalid s index hv]; exact h
  · exact coherent_restoreSnapshot_valid s index (by omega) (by omega)

theorem coherent_restoreLatestSnapshot (s : MarkerManager) (h : Coherent s) :
    Coherent (restoreLatestSnapshot s) := by
  unfold restoreLatestSnapshot
  split_ifs
  · exact h
  · exact coherent_restoreSnapshot s _ h

theorem createSnapshot_eq (s : MarkerManager) (e : Env) (d : QString)
    (h : MapWF s.m_currentMarkers) :
    createSnapshot s e d =
      { m_snapshots := s.m_snapshots ++ [MapSnapshot.create e (QMap.values s.m_currentMarkers) d]
        m_currentSnapshotIndex := (s.m_snapshots.length : Int)
        m_currentMarkers := s.m_currentMarkers } := by
  simp only [createSnapshot, createSnapshotInternal, MapSnapshot.create,
    markersToMap_values h, List.length_append, List.length_singleton, Nat.cast_add,
    Nat.cast_one, add_sub_cancel_right]

theorem coherent_createSnapshot (s : MarkerManager) (e : Env) (d : QString)
    (h : MapWF s.m_currentMarkers) : Coherent (createSnapshot s e d) := by
  rw [createSnapshot_eq s e d h]
  refine ⟨h, ?_⟩
  intro snap _ hs
  simp only [Int.toNat_ofNat, List.getElem?_concat_length] at hs
  cases hs
  exact (markersToMap_values h).symm

theorem coherent_addMarker (s : MarkerManager) (marker : Marker) (createdBy : QString)
    (e : Env) (h : Coherent s) : Coherent (addMarker s marker createdBy e).2 := by
  unfold addMarker
  split_ifs
  · exact h
  · exact coherent_createSnapshot _ _ _ (mapWF_insert marker (coherent_restoreLatestSnapshot s h).1)
  · exact coherent_createSnapshot _ _ _ (mapWF_insert marker h.1)

theorem mapWF_subscript (m : QMap QString Marker) (k : QString) (h : MapWF m) :
    MapWF (QMap.remove (QMap.subscript m k Marker.invalid).2 k) := by
  refine ⟨QMap.remove_sorted k ?_, ?_⟩
  · unfold QMap.subscript
    split
    · exact h.1
    · exact QMap.insert_sorted _ _ h.1
  · intro p hp
    have hp1 : p.1 ≠ k := by simpa using (List.mem_filter.1 hp).2
    have hp2 := List.mem_of_mem_filter hp
    unfold QMap.subscript at hp2
    split at hp2
    · exact h.2 p hp2
    · rcases QMap.mem_insert hp2 with hq | hq
      · subst hq; exact absurd rfl hp1
      · exact h.2 p hq

theorem coherent_deleteMarker (s : MarkerManager) (markerId : QString) (deletedBy : QString)
    (e : Env) (h : Coherent s) : Coherent (deleteMarker s markerId deletedBy e).2 := by
  unfold deleteMarker
  split_ifs
  · exact h
  · exact h
  · exact coherent_createSnapshot _ _ _ (mapWF_subscript _ _ (coherent_restoreLatestSnapshot s h).1)
  · exact coherent_createSnapshot _ _ _ (mapWF_subscript _ _ h.1)

theorem coherent_loadFromSnapshots (s : MarkerManager) (snapshots : List MapSnapshot)
    (h : Coherent s) : Coherent (loadFromSnapshots s snapshots) := by
  unfold loadFromSnapshots
  cases snapshots with
  | nil =>
    refine ⟨h.1, ?_⟩
    intro snap _ hs
    simp at hs
  | cons x xs =>
    simp only [List.isEmpty_cons, Bool.not_false, if_true, restoreLatestSnapshot,
      Bool.false_eq_true, if_false]
    exact coherent_restoreSnapshot_valid _ _ (by simp) (by simp)

theorem reachable_coherent {s : MarkerManager} (h : Reachable s) : Coherent s := by
  induction h with
  | start => exact coherent_init
  | add s marker createdBy e _ ih => exact coherent_addMarker s marker createdBy e ih
  | delete s markerId deletedBy e _ ih => exact coherent_deleteMarker s markerId deletedBy e ih
  | restore s index _ ih => exact coherent_restoreSnapshot s index ih
  | restoreLatest s _ ih => exact coherent_restoreLatestSnapshot s ih
  | load s snapshots _ ih => exact coherent_loadFromSnapshots s snapshots ih

theorem restoreLatestSnapshot_atTip (s : MarkerManager) (hc : Coherent s) (ht : AtTip s) :
    restoreLatestSnapshot s = s := by
  unfold restoreLatestSnapshot
  split_ifs with hE
  · rfl
  · have hne : s.m_snapshots ≠ [] := by simpa using hE
    have hlen : 0 < s.m_snapshots.length := List.length_pos.2 hne
    unfold AtTip at ht
    obtain ⟨snap, hsnap⟩ := exists_snapshot_at s ((s.m_snapshots.length : Int) - 1)
      (by omega) (by omega)
    rw [restoreSnapshot_valid s _ snap (by omega) hsnap]
    have hmap := hc.2 snap (by omega) (by rw [ht]; exact hsnap)
    cases s
    simp only at ht hmap ⊢
    rw [← ht, ← hmap]

end MarkerManager

/-! ## Frame lemmas: what the operations do to the history -/

namespace MarkerManager

theorem restoreSnapshot_snapshots (s : MarkerManager) (index : Int) :
    (restoreSnapshot s index).2.m_snapshots = s.m_snapshots := by
  unfold restoreSnapshot
  split_ifs <;> rfl

theorem restoreLatestSnapshot_snapshots (s : MarkerManager) :
    (restoreLatestSnapshot s).m_snapshots = s.m_snapshots := by
  unfold restoreLatestSnapshot
  split_ifs
  · rfl
  · exact restoreSnapshot_snapshots s _

theorem createSnapshot_snapshots (s : MarkerManager) (e : Env) (d : QString) :
    (createSnapshot s e d).m_snapshots = s.m_snapshots ++ [createSnapshotInternal s e d] := rfl

theorem addMarker_snapshots (s : MarkerManager) (marker : Marker) (createdBy : QString)
    (e : Env) :
    (addMarker s marker createdBy e).2.m_snapshots = s.m_snapshots ∨
      ∃ snap, (addMarker s marker createdBy e).2.m_snapshots = s.m_snapshots ++ [snap] := by
  unfold addMarker
  split_ifs
  · exact Or.inl rfl
  · right
    rw [createSnapshot_snapshots]
    show ∃ snap, (restoreLatestSnapshot s).m_snapshots ++ _ = s.m_snapshots ++ [snap]
    rw [restoreLatestSnapshot_snapshots]
    exact ⟨_, rfl⟩
  · exact Or.inr ⟨_, by rw [createSnapshot_snapshots]⟩

theorem deleteMarker_snapshots (s : MarkerManager) (markerId : QString) (deletedBy : QString)
    (e : Env) :
    (deleteMarker s markerId deletedBy e).2.m_snapshots = s.m_snapshots ∨
      ∃ snap, (deleteMarker s markerId deletedBy e).2.m_snapshots = s.m_snapshots ++ [snap] := by
  unfold deleteMarker
  split_ifs
  · exact Or.inl rfl
  · exact Or.inl rfl
  · right
    rw [createSnapshot_snapshots]
    show ∃ snap, (restoreLatestSnapshot s).m_snapshots ++ _ = s.m_snapshots ++ [snap]
    rw [restoreLatestSnapshot_snapshots]
    exact ⟨_, rfl⟩
  · exact Or.inr ⟨_, by rw [createSnapshot_snapshots]⟩

theorem prefix_of_same_or_appended {α : Type} {old new : List α}
    (h : new = old ∨ ∃ x, new = old ++ [x]) :
    old <+: new ∧ new.length ≤ old.length + 1 := by
  rcases h with h | ⟨x, h⟩
  · subst h; exact ⟨List.prefix_refl _, Nat.le_succ _⟩
  · subst h; exact ⟨List.prefix_append _ _, by simp⟩

end MarkerManager

/-! ## Mutation while browsing -/

namespace MarkerManager

/-- Claim C1, as the code has it: for every state that is Browsing
(`0 <= cursor < len(history) - 1`) and every marker, `addMarker` refuses. It
returns `false` and leaves history, cursor and working marker map as they were;
no snapshot is appended and the cursor is not moved to the tip. -/
theorem addMarker_browsing_refused (s : MarkerManager) (marker : Marker)
    (createdBy : QString) (e : Env) (h : Browsing s) :
    addMarker s marker createdBy e = (false, s) := by
  unfold addMarker
  rw [if_pos (show viewingHistory s from h)]

/-- Witness for C1: the log of two snapshots viewed at index 0 is Browsing and
`addMarker` is refused there. -/
theorem addMarker_browsing_refused_witness :
    Browsing sampleBrowsing ∧
      addMarker sampleBrowsing (sampleMarker 3) [] (sampleEnv 3) = (false, sampleBrowsing) :=
  ⟨by decide, addMarker_browsing_refused sampleBrowsing (sampleMarker 3) [] (sampleEnv 3)
    (by decide)⟩

/-- Counterexample to claim C1 as stated: in the Browsing log of two snapshots
viewed at index 0, `addMarker` does not return success, the history still has
two snapshots and the cursor is still 0. -/
theorem addMarker_browsing_counterexample :
    Browsing sampleBrowsing ∧
      ¬ (addMarker sampleBrowsing (sampleMarker 3) [] (sampleEnv 3)).1 = true ∧
      (addMarker sampleBrowsing (sampleMarker 3) [] (sampleEnv 3)).2.m_snapshots.length = 2 ∧
      (addMarker sampleBrowsing (sampleMarker 3) [] (sampleEnv 3)).2.m_currentSnapshotIndex
        = 0 := by
  decide

/-- Claim C2, as the code has it: for every state that is Browsing and every id
present in the working marker map, `deleteMarker` refuses. It returns `false`
and leaves history, cursor and working marker map as they were. -/
theorem deleteMarker_browsing_refused (s : MarkerManager) (markerId : QString)
    (deletedBy : QString) (e : Env) (h : Browsing s)
    (_hid : QMap.contains s.m_currentMarkers markerId = true) :
    deleteMarker s markerId deletedBy e = (false, s) := by
  unfold deleteMarker
  split_ifs
  · rfl
  · rfl
  · exact absurd (show viewingHistory s from h) (by assumption)
  · exact absurd (show viewingHistory s from h) (by assumption)

/-- Witness for C2, the scenario of the claim: from the empty log,
`addMarker(M1)`, `addMarker(M2)`, `restoreSnapshot(0)`; then `deleteMarker(M1.id)`
is refused and the state stays as it was. -/
theorem deleteMarker_browsing_refused_witness :
    Browsing sampleBrowsing ∧
      QMap.contains sampleBrowsing.m_currentMarkers (sampleMarker 1).id = true ∧
      deleteMarker sampleBrowsing (sampleMarker 1).id [] (sampleEnv 3)
        = (false, sampleBrowsing) :=
  ⟨by decide, by decide,
    deleteMarker_browsing_refused sampleBrowsing (sampleMarker 1).id [] (sampleEnv 3)
      (by decide) (by decide)⟩

/-- Counterexample to claim C2 as stated: after `addMarker(M1)`, `addMarker(M2)`,
`restoreSnapshot(0)` from the empty log, `deleteMarker(M1.id)` returns `false`, the
history has 2 snapshots (not 3) and the cursor is 0 (not 2). -/
theorem deleteMarker_browsing_counterexample :
    QMap.contains sampleBrowsing.m_currentMarkers (sampleMarker 1).id = true ∧
      (deleteMarker sampleBrowsing (sampleMarker 1).id [] (sampleEnv 3)).1 = false ∧
      (deleteMarker sampleBrowsing (sampleMarker 1).id [] (sampleEnv 3)).2.m_snapshots.length
        = 2 ∧
      (deleteMarker sampleBrowsing (sampleMarker 1).id [] (sampleEnv 3)).2.m_currentSnapshotIndex
        = 0 := by
  decide

end MarkerManager

/-! ## Mutation at the tip -/

namespace MarkerManager

theorem not_viewingHistory_of_atTip {s : MarkerManager} (ht : AtTip s) :
    ¬ viewingHistory s := by
  unfold viewingHistory
  unfold AtTip at ht
  omega

theorem addMarker_atTip_eq (s : MarkerManager) (hc : Coherent s) (ht : AtTip s)
    (marker : Marker) (createdBy : QString) (e : Env) :
    addMarker s marker createdBy e =
      (true,
        { m_snapshots := s.m_snapshots ++
            [MapSnapshot.create e (QMap.values (QMap.insert s.m_currentMarkers marker.id marker))
              (describe "添加标记: " marker.note createdBy)]
          m_currentSnapshotIndex := (s.m_snapshots.length : Int)
          m_currentMarkers := QMap.insert s.m_currentMarkers marker.id marker }) := by
  unfold addMarker
  rw [if_neg (not_viewingHistory_of_atTip ht)]
  have hs1 : (if (!s.m_snapshots.isEmpty) = true then restoreLatestSnapshot s else s) = s := by
    split_ifs
    · exact restoreLatestSnapshot_atTip s hc ht
    · rfl
  simp only [hs1]
  rw [createSnapshot_eq _ _ _ (mapWF_insert marker hc.1)]

theorem deleteMarker_atTip_eq (s : MarkerManager) (hc : Coherent s) (ht : AtTip s)
    (markerId : QString) (deletedBy : QString) (e : Env)
    (hid : QMap.contains s.m_currentMarkers markerId = true) :
    deleteMarker s markerId deletedBy e =
      (true,
        { m_snapshots := s.m_snapshots ++
            [MapSnapshot.create e (QMap.values (QMap.remove s.m_currentMarkers markerId))
              (describe "删除标记: "
                (QMap.subscript s.m_currentMarkers markerId Marker.invalid).1.note deletedBy)]
          m_currentSnapshotIndex := (s.m_snapshots.length : Int)
          m_currentMarkers := QMap.remove s.m_currentMarkers markerId }) := by
  unfold deleteMarker
  rw [if_neg (by simp [hid]), if_neg (not_viewingHistory_of_atTip ht)]
  have hs1 : (if (!s.m_snapshots.isEmpty) = true then restoreLatestSnapshot s else s) = s := by
    split_ifs
    · exact restoreLatestSnapshot_atTip s hc ht
    · rfl
  simp only [hs1, QMap.subscript_of_contains Marker.invalid hid]
  rw [createSnapshot_eq _ _ _ (mapWF_remove markerId hc.1)]

end MarkerManager

/-! ## The cursor, the history and the failure cases -/

namespace MarkerManager

/-- Claim C4, evaluated on the code: after `addMarker` on the constructed manager and
`loadFromSnapshots` with an empty list, a reachable state, the history is empty
while the cursor is still 0 and not the sentinel `-1`; the working marker map
still holds the marker of the replaced history. -/
theorem loadFromSnapshots_empty_keeps_cursor :
    Reachable sampleEmptied ∧
      sampleEmptied.m_snapshots = [] ∧
      sampleEmptied.m_currentSnapshotIndex = 0 ∧
      sampleEmptied.m_currentSnapshotIndex ≠ -1 ∧
      QMap.values sampleEmptied.m_currentMarkers = [sampleMarker 1] :=
  ⟨Reachable.load _ _ (Reachable.add _ _ _ _ Reachable.start),
    by decide, by decide, by decide, by decide⟩

/-- Claim C5: for every state and every call of `addMarker`, `deleteMarker`,
`restoreSnapshot` or `restoreLatestSnapshot`, whatever it returns, the history
before the call is a prefix of the history after the call and at most one
snapshot is appended. -/
theorem history_is_prefix (s : MarkerManager) (marker : Marker) (markerId actor : QString)
    (e : Env) (index : Int) :
    (s.m_snapshots <+: (addMarker s marker actor e).2.m_snapshots ∧
      (addMarker s marker actor e).2.m_snapshots.length ≤ s.m_snapshots.length + 1) ∧
    (s.m_snapshots <+: (deleteMarker s markerId actor e).2.m_snapshots ∧
      (deleteMarker s markerId actor e).2.m_snapshots.length ≤ s.m_snapshots.length + 1) ∧
    (s.m_snapshots <+: (restoreSnapshot s index).2.m_snapshots ∧
      (restoreSnapshot s index).2.m_snapshots.length ≤ s.m_snapshots.length + 1) ∧
    (s.m_snapshots <+: (restoreLatestSnapshot s).m_snapshots ∧
      (restoreLatestSnapshot s).m_snapshots.length ≤ s.m_snapshots.length + 1) :=
  ⟨prefix_of_same_or_appended (addMarker_snapshots s marker actor e),
    prefix_of_same_or_appended (deleteMarker_snapshots s markerId actor e),
    prefix_of_same_or_appended (Or.inl (restoreSnapshot_snapshots s index)),
    prefix_of_same_or_appended (Or.inl (restoreLatestSnapshot_snapshots s))⟩

/-- Claim C6: for every state, the empty log included, and every id that is not
in the working marker map, `deleteMarker` returns `false` (a result, not a fault)
and leaves history, cursor and working marker map unchanged. -/
theorem deleteMarker_absent (s : MarkerManager) (markerId deletedBy : QString) (e : Env)
    (h : QMap.contains s.m_currentMarkers markerId = false) :
    deleteMarker s markerId deletedBy e = (false, s) := by
  unfold deleteMarker
  rw [if_pos (by simp [h])]

/-- Witness for C6: deleting from the freshly constructed, empty log. -/
theorem deleteMarker_absent_witness :
    QMap.contains init.m_currentMarkers (sampleMarker 1).id = false ∧
      deleteMarker init (sampleMarker 1).id [] (sampleEnv 1) = (false, init) :=
  ⟨by decide, deleteMarker_absent init (sampleMarker 1).id [] (sampleEnv 1) (by decide)⟩

/-- Claim C7: `restoreSnapshot(index)` returns `false` exactly when `index < 0` or
`index >= len(history)`; whenever it returns `false` the state (history, cursor,
working marker map) is unchanged; and `restoreLatestSnapshot` on an empty history
changes nothing. -/
theorem restoreSnapshot_false_iff (s : MarkerManager) (index : Int) :
    ((restoreSnapshot s index).1 = false ↔
        (index < 0 ∨ index ≥ (s.m_snapshots.length : Int))) ∧
      ((restoreSnapshot s index).1 = false → (restoreSnapshot s index).2 = s) ∧
      (s.m_snapshots = [] → restoreLatestSnapshot s = s) := by
  refine ⟨?_, ?_, restoreLatestSnapshot_empty s⟩
  · unfold restoreSnapshot
    split_ifs with h
    · exact ⟨fun _ => h, fun _ => rfl⟩
    · exact ⟨fun hf => (by cases hf), fun hv => absurd hv h⟩
  · unfold restoreSnapshot
    split_ifs with h
    · exact fun _ => rfl
    · exact fun hf => by cases hf

/-- Claim C8: for every state and every index with `0 <= index < len(history)`,
`restoreSnapshot(index)` returns `true`, sets the cursor to `index`, makes
`currentMarkers()` the marker list of `history[index]`, and leaves the history
unchanged; the new state is AtTip when `index = len(history) - 1` and Browsing
otherwise. -/
theorem restoreSnapshot_valid_view (s : MarkerManager) (index : Int)
    (h0 : 0 ≤ index) (h1 : index < (s.m_snapshots.length : Int)) :
    ∃ snap, s.m_snapshots[index.toNat]? = some snap ∧
      (restoreSnapshot s index).1 = true ∧
      (restoreSnapshot s index).2.m_currentSnapshotIndex = index ∧
      currentMarkers (restoreSnapshot s index).2 = snap.markers ∧
      (restoreSnapshot s index).2.m_snapshots = s.m_snapshots ∧
      (index = (s.m_snapshots.length : Int) - 1 → AtTip (restoreSnapshot s index).2) ∧
      (index ≠ (s.m_snapshots.length : Int) - 1 → Browsing (restoreSnapshot s index).2) := by
  obtain ⟨snap, hsnap⟩ := exists_snapshot_at s index h0 h1
  have hlt : index.toNat < s.m_snapshots.length := by omega
  have hget : s.m_snapshots.get ⟨index.toNat, hlt⟩ = snap := by
    have := List.getElem?_eq_getElem hlt
    rw [hsnap] at this
    exact (Option.some.inj this).symm
  refine ⟨snap, hsnap, ?_⟩
  rw [restoreSnapshot_valid s index snap h0 hsnap]
  refine ⟨rfl, rfl, ?_, rfl, ?_, ?_⟩
  · unfold currentMarkers
    rw [dif_pos (show 0 ≤ index ∧ index < (s.m_snapshots.length : Int) from ⟨h0, h1⟩)]
    simp only [hget]
  · intro h; exact h
  · intro h
    show 0 ≤ index ∧ index < (s.m_snapshots.length : Int) - 1
    omega

/-- Witness for C8: viewing index 0 of the log of two snapshots. -/
theorem restoreSnapshot_valid_view_witness :
    ∃ snap, sampleLog2.m_snapshots[(0 : Int).toNat]? = some snap ∧
      (restoreSnapshot sampleLog2 0).1 = true ∧
      (restoreSnapshot sampleLog2 0).2.m_currentSnapshotIndex = 0 ∧
      currentMarkers (restoreSnapshot sampleLog2 0).2 = snap.markers ∧
      (restoreSnapshot sampleLog2 0).2.m_snapshots = sampleLog2.m_snapshots ∧
      ((0 : Int) = (sampleLog2.m_snapshots.length : Int) - 1 →
        AtTip (restoreSnapshot sampleLog2 0).2) ∧
      ((0 : Int) ≠ (sampleLog2.m_snapshots.length : Int) - 1 →
        Browsing (restoreSnapshot sampleLog2 0).2) :=
  restoreSnapshot_valid_view sampleLog2 0 (by decide) (by decide)

end MarkerManager

/-! ## Browsing round trip and the scenario from the empty log -/

namespace MarkerManager

/-- Claim C9: for every reachable state that is AtTip and every valid index `i`,
`restoreSnapshot(i)` followed by `restoreLatestSnapshot()`, or by
`restoreSnapshot(len(history) - 1)`, gives back the state before the two calls:
the same history, cursor and working marker map. -/
theorem restore_round_trip (s : MarkerManager) (hr : Reachable s) (ht : AtTip s)
    (i : Int) (h0 : 0 ≤ i) (h1 : i < (s.m_snapshots.length : Int)) :
    restoreLatestSnapshot (restoreSnapshot s i).2 = s ∧
      (restoreSnapshot (restoreSnapshot s i).2 ((s.m_snapshots.length : Int) - 1)).2 = s := by
  have hc := reachable_coherent hr
  obtain ⟨snap, hsnap⟩ := exists_snapshot_at s i h0 h1
  obtain ⟨tip, htip⟩ := exists_snapshot_at s ((s.m_snapshots.length : Int) - 1)
    (by omega) (by omega)
  have hne : s.m_snapshots ≠ [] := by
    intro hE
    rw [hE] at h1
    simp at h1
    omega
  have hback : (restoreSnapshot (restoreSnapshot s i).2
      ((s.m_snapshots.length : Int) - 1)).2 = s := by
    rw [restoreSnapshot_valid s i snap h0 hsnap]
    rw [restoreSnapshot_valid
      { m_snapshots := s.m_snapshots, m_currentSnapshotIndex := i,
        m_currentMarkers := markersToMap snap.markers }
      ((s.m_snapshots.length : Int) - 1) tip (by omega) htip]
    unfold AtTip at ht
    have hmap := hc.2 tip (by omega) (by rw [ht]; exact htip)
    cases s
    simp only at ht hmap ⊢
    rw [← ht, ← hmap]
  refine ⟨?_, hback⟩
  unfold restoreLatestSnapshot
  rw [restoreSnapshot_snapshots]
  rw [if_neg (by simpa using hne)]
  exact hback

/-- Witness for C9: from the log of two snapshots at its tip, view index 0 and
return to the latest snapshot. -/
theorem restore_round_trip_witness :
    Reachable sampleLog2 ∧ AtTip sampleLog2 ∧
      restoreLatestSnapshot (restoreSnapshot sampleLog2 0).2 = sampleLog2 ∧
      (restoreSnapshot (restoreSnapshot sampleLog2 0).2
        ((sampleLog2.m_snapshots.length : Int) - 1)).2 = sampleLog2 :=
  have hr : Reachable sampleLog2 := Reachable.add _ _ _ _ (Reachable.add _ _ _ _ Reachable.start)
  have ht : AtTip sampleLog2 := by decide
  ⟨hr, ht, restore_round_trip sampleLog2 hr ht 0 (by decide) (by decide)⟩

/-- Claim C10, evaluated on the code: in the reachable state whose history was made
empty by `loadFromSnapshots` after an earlier `addMarker(sampleMarker 1)`, the call
`addMarker(sampleMarker 2)` succeeds and leaves a history of one snapshot, but that
snapshot holds both markers, not the added one alone. -/
theorem addMarker_after_empty_load :
    Reachable sampleEmptied ∧
      sampleEmptied.m_snapshots = [] ∧
      (addMarker sampleEmptied (sampleMarker 2) [] (sampleEnv 2)).1 = true ∧
      (addMarker sampleEmptied (sampleMarker 2) [] (sampleEnv 2)).2.m_snapshots.map
          MapSnapshot.markers = [[sampleMarker 1, sampleMarker 2]] ∧
      (addMarker sampleEmptied (sampleMarker 2) [] (sampleEnv 2)).2.m_snapshots.map
          MapSnapshot.markers ≠ [[sampleMarker 2]] :=
  ⟨Reachable.load _ _ (Reachable.add _ _ _ _ Reachable.start),
    by decide, by decide, by decide, by decide⟩

end MarkerManager

/-! ## What the map operations mean for lookups -/

namespace QMap

variable {K V : Type} [LinearOrder K]

theorem find?_cons (p : K × V) (m : QMap K V) (k : K) :
    find? (p :: m) k = if p.1 = k then some p.2 else find? m k := by
  by_cases h : p.1 = k
  · simp [find?, List.find?, h]
  · simp [find?, List.find?, h]

/-- Looking up after `m[k] = v`: `k` is bound to `v`, other keys are untouched. -/
theorem find?_insert (m : QMap K V) (k k2 : K) (v : V) :
    find? (insert m k v) k2 = if k2 = k then some v else find? m k2 := by
  induction m with
  | nil =>
    unfold insert
    rw [find?_cons]
    by_cases h : k = k2
    · simp [h]
    · have h2 : ¬ k2 = k := fun h3 => h h3.symm
      simp [h, h2, find?]
  | cons hd tl ih =>
    obtain ⟨k1, v1⟩ := hd
    unfold insert
    by_cases hk : k2 = k
    · subst hk
      rw [if_pos rfl]
      split_ifs with h1 h2
      · simp [find?_cons]
      · simp [find?_cons]
      · rw [find?_cons, if_neg (fun h => h2 h.symm), ih, if_pos rfl]
    · have hk2 : ¬ k = k2 := fun h => hk h.symm
      rw [if_neg hk]
      split_ifs with h1 h2
      · rw [find?_cons, if_neg hk2]
      · subst h2
        rw [find?_cons, find?_cons, if_neg hk2, if_neg hk2]
      · rw [find?_cons, find?_cons, ih, if_neg hk]

/-- Looking up after `m.remove(k)`: `k` is unbound, other keys are untouched. -/
theorem find?_remove (m : QMap K V) (k k2 : K) :
    find? (remove m k) k2 = if k2 = k then none else find? m k2 := by
  induction m with
  | nil => simp [remove, find?]
  | cons hd tl ih =>
    by_cases h1 : hd.1 = k
    · have hr : remove (hd :: tl) k = remove tl k := by simp [remove, h1]
      rw [hr, ih, find?_cons]
      by_cases hk : k2 = k
      · simp [hk]
      · have : ¬ hd.1 = k2 := fun h => hk (h ▸ h1)
        simp [hk, this]
    · have hr : remove (hd :: tl) k = hd :: remove tl k := by simp [remove, h1]
      rw [hr, find?_cons, find?_cons, ih]
      by_cases hk : k2 = k
      · have : ¬ hd.1 = k2 := fun h => h1 (h.trans hk)
        simp [hk, this]
        subst hk
        exact fun h => absurd h this
      · simp [hk]

theorem contains_eq_isSome (m : QMap K V) (k : K) :
    contains m k = (find? m k).isSome := by
  induction m with
  | nil => simp [contains, find?]
  | cons hd tl ih =>
    rw [find?_cons]
    by_cases h : hd.1 = k
    · simp [contains, h]
    · have : contains (hd :: tl) k = contains tl k := by simp [contains, h]
      rw [this, ih, if_neg h]

end QMap

theorem find?_markersToMap_foldl (l : List Marker) (acc : QMap QString Marker) (k : QString) :
    (QMap.find? (l.foldl (fun m marker => QMap.insert m marker.id marker) acc) k).isSome
      = (l.any (fun x => decide (x.id = k)) || (QMap.find? acc k).isSome) := by
  induction l generalizing acc with
  | nil => simp
  | cons x xs ih =>
    rw [List.foldl_cons, ih, QMap.find?_insert]
    by_cases h : k = x.id
    · simp [h]
    · have h2 : ¬ x.id = k := fun h3 => h h3.symm
      simp [h, h2]

theorem contains_markersToMap (l : List Marker) (k : QString) :
    QMap.contains (markersToMap l) k = l.any (fun x => decide (x.id = k)) := by
  rw [QMap.contains_eq_isSome, markersToMap, find?_markersToMap_foldl]
  simp [QMap.find?]

theorem contains_eq_any_values (m : QMap QString Marker) (hk : ∀ p ∈ m, p.1 = p.2.id)
    (k : QString) :
    QMap.contains m k = (QMap.values m).any (fun x => decide (x.id = k)) := by
  induction m with
  | nil => rfl
  | cons hd tl ih =>
    have h1 := hk hd (List.mem_cons_self _ _)
    have h2 := ih (fun p hp => hk p (List.mem_cons_of_mem _ hp))
    simp only [QMap.contains, QMap.values, List.any_cons, List.map_cons] at h2 ⊢
    rw [h2, h1]
    congr 1
    exact decide_eq_decide.2 Iff.rfl

namespace MarkerManager

/-- In a reachable state the ids bound in the working marker map are the ids of
the markers that `currentMarkers()` returns. -/
theorem live_ids_agree (s : MarkerManager) (hr : Reachable s) (k : QString) :
    QMap.contains s.m_currentMarkers k = (currentMarkers s).any (fun x => decide (x.id = k)) := by
  have hc := reachable_coherent hr
  unfold currentMarkers
  split_ifs with h
  · obtain ⟨snap, hsnap⟩ := exists_snapshot_at s _ h.1 h.2
    have hlt : s.m_currentSnapshotIndex.toNat < s.m_snapshots.length := by omega
    have hget : s.m_snapshots.get ⟨s.m_currentSnapshotIndex.toNat, hlt⟩ = snap := by
      have := List.getElem?_eq_getElem hlt
      rw [hsnap] at this
      exact (Option.some.inj this).symm
    rw [hc.2 snap h.1 hsnap, contains_markersToMap]
    simp only [hget]
  · exact contains_eq_any_values _ hc.1.2 k

end MarkerManager

namespace MarkerManager

/-- Viewing index 0 of a history of two snapshots. -/
theorem view_first_of_two (snap1 snap2 : MapSnapshot) (m : QMap QString Marker) :
    currentMarkers (restoreSnapshot
        { m_snapshots := [snap1, snap2], m_currentSnapshotIndex := 1, m_currentMarkers := m }
        0).2 = snap1.markers ∧
      (restoreSnapshot
        { m_snapshots := [snap1, snap2], m_currentSnapshotIndex := 1, m_currentMarkers := m }
        0).2.m_currentSnapshotIndex = 0 ∧
      Browsing (restoreSnapshot
        { m_snapshots := [snap1, snap2], m_currentSnapshotIndex := 1, m_currentMarkers := m }
        0).2 := by
  rw [restoreSnapshot_valid
    { m_snapshots := [snap1, snap2], m_currentSnapshotIndex := 1, m_currentMarkers := m }
    0 snap1 (le_refl 0) rfl]
  refine ⟨?_, rfl, ?_⟩
  · unfold currentMarkers
    simp
  · simp [Browsing]

/-- The scenario from the freshly constructed manager: `addMarker(M1)` leaves one
snapshot holding `M1`; `addMarker(M2)` with another id leaves two, the latest
holding `M1` and `M2`; `restoreSnapshot(0)` then shows `M1` alone with cursor 0,
state Browsing. -/
theorem scenario_from_init (M1 M2 : Marker) (a1 a2 : QString) (e1 e2 : Env)
    (hne : M1.id ≠ M2.id) :
    (addMarker init M1 a1 e1).1 = true ∧
      (addMarker init M1 a1 e1).2.m_snapshots.map MapSnapshot.markers = [[M1]] ∧
      (addMarker (addMarker init M1 a1 e1).2 M2 a2 e2).1 = true ∧
      (∃ l2, (addMarker (addMarker init M1 a1 e1).2 M2 a2 e2).2.m_snapshots.map
            MapSnapshot.markers = [[M1], l2] ∧
          l2.length = 2 ∧ ∀ m, m ∈ l2 ↔ m = M1 ∨ m = M2) ∧
      currentMarkers
          (restoreSnapshot (addMarker (addMarker init M1 a1 e1).2 M2 a2 e2).2 0).2 = [M1] ∧
      (restoreSnapshot (addMarker (addMarker init M1 a1 e1).2 M2 a2 e2).2 0).2.m_currentSnapshotIndex
          = 0 ∧
      Browsing (restoreSnapshot (addMarker (addMarker init M1 a1 e1).2 M2 a2 e2).2 0).2 := by
  have h1 : addMarker init M1 a1 e1 =
      (true, { m_snapshots := [MapSnapshot.create e1 [M1] (describe "添加标记: " M1.note a1)]
               m_currentSnapshotIndex := 0
               m_currentMarkers := [(M1.id, M1)] }) := by
    rw [addMarker_atTip_eq init coherent_init (by decide)]
    rfl
  have hc1 := coherent_addMarker init M1 a1 e1 coherent_init
  rw [h1] at hc1 ⊢
  have h2 := addMarker_atTip_eq _ hc1 (by simp [AtTip]) M2 a2 e2
  have hne2 : ¬ M2.id = M1.id := fun h => hne h.symm
  simp only [QMap.insert, if_neg hne2] at h2
  by_cases hlt : M2.id < M1.id
  · rw [if_pos hlt] at h2
    rw [h2]
    refine ⟨rfl, rfl, rfl, ⟨[M2, M1], rfl, rfl, ?_⟩, view_first_of_two _ _ _⟩
    intro m
    simp [or_comm]
  · rw [if_neg hlt] at h2
    rw [h2]
    refine ⟨rfl, rfl, rfl, ⟨[M1, M2], rfl, rfl, ?_⟩, view_first_of_two _ _ _⟩
    intro m
    simp

end MarkerManager

/-! ## Loading a fetched log and looking a marker up -/

namespace MarkerManager

theorem getElem?_last_of_getLast? {α : Type} {l : List α} {x : α}
    (h : l.getLast? = some x) : l[((l.length : Int) - 1).toNat]? = some x := by
  have hn : ((l.length : Int) - 1).toNat = l.length - 1 := by omega
  rw [hn, ← List.getLast?_eq_getElem?]
  exact h

theorem length_pos_of_getLast? {α : Type} {l : List α} {x : α}
    (h : l.getLast? = some x) : 0 < l.length := by
  cases l with
  | nil => simp at h
  | cons a as => simp

theorem currentMarkers_of_valid (s : MarkerManager) (snap : MapSnapshot)
    (h0 : 0 ≤ s.m_currentSnapshotIndex)
    (hsnap : s.m_snapshots[s.m_currentSnapshotIndex.toNat]? = some snap) :
    currentMarkers s = snap.markers := by
  have hlt : s.m_currentSnapshotIndex.toNat < s.m_snapshots.length := by
    by_contra hc
    rw [List.getElem?_eq_none (not_lt.1 hc)] at hsnap
    cases hsnap
  have hget : s.m_snapshots.get ⟨s.m_currentSnapshotIndex.toNat, hlt⟩ = snap := by
    have := List.getElem?_eq_getElem hlt
    rw [hsnap] at this
    exact (Option.some.inj this).symm
  unfold currentMarkers
  rw [dif_pos (by omega)]
  simp only [hget]

/-- Claim C11: for every state and every snapshot list `S`, `loadFromSnapshots(S)`
makes the history equal to `S`, element for element in the given order; when `S`
is not empty the cursor is then `len(S) - 1` and the working marker map and
`currentMarkers()` are those of the last snapshot of `S`. -/
theorem loadFromSnapshots_replaces (s : MarkerManager) (S : List MapSnapshot) :
    (loadFromSnapshots s S).m_snapshots = S ∧
      ∀ last, S.getLast? = some last →
        (loadFromSnapshots s S).m_currentSnapshotIndex = (S.length : Int) - 1 ∧
        (loadFromSnapshots s S).m_currentMarkers = markersToMap last.markers ∧
        currentMarkers (loadFromSnapshots s S) = last.markers := by
  constructor
  · unfold loadFromSnapshots
    simp only
    split_ifs
    · exact restoreLatestSnapshot_snapshots _
    · rfl
  · intro last hlast
    have hpos := length_pos_of_getLast? hlast
    have hne : S ≠ [] := by
      intro h
      rw [h] at hpos
      exact Nat.lt_irrefl 0 hpos
    have hload : loadFromSnapshots s S =
        { m_snapshots := S, m_currentSnapshotIndex := (S.length : Int) - 1,
          m_currentMarkers := markersToMap last.markers } := by
      unfold loadFromSnapshots restoreLatestSnapshot
      have hE : S.isEmpty = false := by simpa using hne
      simp only [hE, Bool.not_false, if_true, Bool.false_eq_true, if_false]
      rw [restoreSnapshot_valid
        { m_snapshots := S, m_currentSnapshotIndex := s.m_currentSnapshotIndex,
          m_currentMarkers := s.m_currentMarkers }
        ((S.length : Int) - 1) last (by omega) (getElem?_last_of_getLast? hlast)]
    rw [hload]
    refine ⟨rfl, rfl, ?_⟩
    exact currentMarkers_of_valid _ last (by simp only; omega) (getElem?_last_of_getLast? hlast)

/-- Witness for C11: loading a log of two snapshots into the constructed manager. -/
theorem loadFromSnapshots_replaces_witness :
    (loadFromSnapshots init [sampleSnapshot 1 [1], sampleSnapshot 2 [1, 2]]).m_snapshots
        = [sampleSnapshot 1 [1], sampleSnapshot 2 [1, 2]] ∧
      (loadFromSnapshots init
        [sampleSnapshot 1 [1], sampleSnapshot 2 [1, 2]]).m_currentSnapshotIndex = 1 ∧
      currentMarkers (loadFromSnapshots init [sampleSnapshot 1 [1], sampleSnapshot 2 [1, 2]])
        = [sampleMarker 1, sampleMarker 2] :=
  have h := loadFromSnapshots_replaces init [sampleSnapshot 1 [1], sampleSnapshot 2 [1, 2]]
  have h2 := h.2 (sampleSnapshot 2 [1, 2]) rfl
  ⟨h.1, h2.1, h2.2.2⟩

end MarkerManager

namespace QMap

variable {K V : Type} [LinearOrder K]

theorem mem_of_find? {m : QMap K V} {k : K} {v : V} (h : find? m k = some v) :
    ∃ p ∈ m, p.1 = k ∧ p.2 = v := by
  unfold find? at h
  rcases hf : List.find? (fun p => decide (p.1 = k)) m with _ | p
  · rw [hf] at h; cases h
  · rw [hf] at h
    refine ⟨p, List.mem_of_find?_eq_some hf, ?_, ?_⟩
    · simpa using List.find?_some hf
    · simpa using h

end QMap

namespace MarkerManager

theorem findMarker_of_contains (s : MarkerManager) (markerId : QString)
    (h : QMap.contains s.m_currentMarkers markerId = true) :
    findMarker s markerId = (QMap.find? s.m_currentMarkers markerId).getD Marker.invalid := by
  unfold findMarker
  rw [if_pos h]

theorem findMarker_of_absent_valid (s : MarkerManager) (markerId : QString)
    (h : QMap.contains s.m_currentMarkers markerId = false) (snap : MapSnapshot)
    (h0 : 0 ≤ s.m_currentSnapshotIndex)
    (hsnap : s.m_snapshots[s.m_currentSnapshotIndex.toNat]? = some snap) :
    findMarker s markerId =
      (snap.markers.find? (fun marker => decide (marker.id = markerId))).getD Marker.invalid := by
  have hlt : s.m_currentSnapshotIndex.toNat < s.m_snapshots.length := by
    by_contra hc
    rw [List.getElem?_eq_none (not_lt.1 hc)] at hsnap
    cases hsnap
  have hget : s.m_snapshots.get ⟨s.m_currentSnapshotIndex.toNat, hlt⟩ = snap := by
    have := List.getElem?_eq_getElem hlt
    rw [hsnap] at this
    exact (Option.some.inj this).symm
  unfold findMarker
  rw [if_neg (by simp [h]), dif_pos (by omega)]
  simp only [hget]
  cases List.find? (fun marker => decide (marker.id = markerId)) snap.markers <;> rfl

theorem findMarker_of_absent_invalid (s : MarkerManager) (markerId : QString)
    (h : QMap.contains s.m_currentMarkers markerId = false)
    (hv : ¬ (0 ≤ s.m_currentSnapshotIndex ∧
      s.m_currentSnapshotIndex < (s.m_snapshots.length : Int))) :
    findMarker s markerId = Marker.invalid := by
  unfold findMarker
  rw [if_neg (by simp [h]), dif_neg hv]

/-- Claim C12: `findMarker(id)` returns the marker bound to `id` in the working marker
map when there is one; otherwise the first marker with that id in the snapshot
under the cursor; otherwise the invalid default marker. Hence, in every
reachable state and for every non-empty id, the result has the requested id
exactly when some marker of `currentMarkers()` has it. -/
theorem findMarker_spec (s : MarkerManager) (markerId : QString) :
    (∀ m, QMap.find? s.m_currentMarkers markerId = some m → findMarker s markerId = m) ∧
    (QMap.contains s.m_currentMarkers markerId = false →
      ∀ snap, 0 ≤ s.m_currentSnapshotIndex →
        s.m_snapshots[s.m_currentSnapshotIndex.toNat]? = some snap →
        findMarker s markerId =
          (snap.markers.find? (fun marker => decide (marker.id = markerId))).getD
            Marker.invalid) ∧
    (QMap.contains s.m_currentMarkers markerId = false →
      ¬ (0 ≤ s.m_currentSnapshotIndex ∧
        s.m_currentSnapshotIndex < (s.m_snapshots.length : Int)) →
      findMarker s markerId = Marker.invalid) ∧
    (Reachable s → markerId ≠ [] →
      ((findMarker s markerId).id = markerId ↔
        ∃ m ∈ currentMarkers s, m.id = markerId)) := by
  refine ⟨?_, findMarker_of_absent_valid s markerId, findMarker_of_absent_invalid s markerId, ?_⟩
  · intro m hm
    have hc : QMap.contains s.m_currentMarkers markerId = true := by
      rw [QMap.contains_eq_isSome, hm]; rfl
    rw [findMarker_of_contains s markerId hc, hm]
    rfl
  · intro hr hne
    have hco := reachable_coherent hr
    have hany := live_ids_agree s hr markerId
    have hiff : (∃ m ∈ currentMarkers s, m.id = markerId) ↔
        QMap.contains s.m_currentMarkers markerId = true := by
      rw [hany, List.any_eq_true]
      constructor
      · rintro ⟨m, hm, hid⟩
        exact ⟨m, hm, by simpa using hid⟩
      · rintro ⟨m, hm, hid⟩
        exact ⟨m, hm, by simpa using hid⟩
    rw [hiff]
    by_cases hc : QMap.contains s.m_currentMarkers markerId = true
    · obtain ⟨v, hv⟩ := QMap.find?_isSome_of_contains hc
      obtain ⟨p, hp, hp1, hp2⟩ := QMap.mem_of_find? hv
      rw [findMarker_of_contains s markerId hc, hv]
      have : v.id = markerId := by
        rw [← hp2, ← hco.1.2 p hp, hp1]
      exact ⟨fun _ => hc, fun _ => this⟩
    · have hcf : QMap.contains s.m_currentMarkers markerId = false := by
        simpa using hc
      have hinv : findMarker s markerId = Marker.invalid := by
        by_cases hv : 0 ≤ s.m_currentSnapshotIndex ∧
            s.m_currentSnapshotIndex < (s.m_snapshots.length : Int)
        · obtain ⟨snap, hsnap⟩ := exists_snapshot_at s _ hv.1 hv.2
          rw [findMarker_of_absent_valid s markerId hcf snap hv.1 hsnap]
          have hcur := currentMarkers_of_valid s snap hv.1 hsnap
          have hnone : snap.markers.find? (fun marker => decide (marker.id = markerId))
              = none := by
            rw [List.find?_eq_none]
            intro x hx hid
            apply hc
            rw [hany, hcur, List.any_eq_true]
            exact ⟨x, hx, hid⟩
          rw [hnone]
          rfl
        · exact findMarker_of_absent_invalid s markerId hcf hv
      rw [hinv]
      constructor
      · intro h
        exact absurd h.symm hne
      · intro h
        exact absurd h hc

/-- Witness for C12: in the browsing sample log (two snapshots, viewed at index 0)
marker 1 is found and marker 2, which only the later snapshot holds, is not. -/
theorem findMarker_spec_witness :
    Reachable sampleBrowsing ∧
      findMarker sampleBrowsing (sampleMarker 1).id = sampleMarker 1 ∧
      ((findMarker sampleBrowsing (sampleMarker 2).id).id = (sampleMarker 2).id ↔
        ∃ m ∈ currentMarkers sampleBrowsing, m.id = (sampleMarker 2).id) ∧
      findMarker sampleBrowsing (sampleMarker 2).id = Marker.invalid :=
  have hr : Reachable sampleBrowsing :=
    Reachable.restore _ _ (Reachable.add _ _ _ _ (Reachable.add _ _ _ _ Reachable.start))
  ⟨hr, (findMarker_spec sampleBrowsing (sampleMarker 1).id).1 (sampleMarker 1) (by decide),
    (findMarker_spec sampleBrowsing (sampleMarker 2).id).2.2.2 hr (by decide),
    by decide⟩

end MarkerManager

/-! ## The JSON form of a marker and of a snapshot -/

theorem Marker.toJson_members (m : Marker) :
    Marker.toJson m =
      [(utf16 "color", .string m.color.name),
        (utf16 "createTime", .string m.createTime.toStringISODate),
        (utf16 "createdBy", .string m.createdBy),
        (utf16 "id", .string m.id),
        (utf16 "note", .string m.note),
        (utf16 "x", .double m.position.x),
        (utf16 "y", .double m.position.y)] := rfl

theorem Marker.fromJson_of_toJson (m : Marker) :
    Marker.fromJson (Marker.toJson m) =
      { m with color := QColor.fromName m.color.name
               createTime := QDateTime.fromStringISODate m.createTime.toStringISODate } := rfl

theorem MapSnapshot.snapshot_toJson_members (s : MapSnapshot) :
    MapSnapshot.toJson s =
      [(utf16 "description", .string s.description),
        (utf16 "markers", .array (s.markers.map fun m => .object m.toJson)),
        (utf16 "snapshotId", .string s.snapshotId),
        (utf16 "timestamp", .string s.timestamp.toStringISODate)] := rfl

theorem MapSnapshot.snapshot_fromJson_of_toJson (s : MapSnapshot) :
    MapSnapshot.fromJson (MapSnapshot.toJson s) =
      { s with timestamp := QDateTime.fromStringISODate s.timestamp.toStringISODate
               markers := s.markers.map fun m => Marker.fromJson (Marker.toJson m) } := by
  have hm : (MapSnapshot.fromJson (MapSnapshot.toJson s)).markers
      = s.markers.map fun m => Marker.fromJson (Marker.toJson m) := by
    show ((s.markers.map fun m => QJsonValue.object m.toJson).map
        fun v => Marker.fromJson v.toObject) = _
    rw [List.map_map]
    rfl
  have h1 : (MapSnapshot.fromJson (MapSnapshot.toJson s)).snapshotId = s.snapshotId := rfl
  have h2 : (MapSnapshot.fromJson (MapSnapshot.toJson s)).description = s.description := rfl
  have h3 : (MapSnapshot.fromJson (MapSnapshot.toJson s)).timestamp
      = QDateTime.fromStringISODate s.timestamp.toStringISODate := rfl
  cases hfs : MapSnapshot.fromJson (MapSnapshot.toJson s)
  rw [hfs] at hm h1 h2 h3
  simp only at hm h1 h2 h3
  simp only [hm, h1, h2, h3]

theorem hexValue?_hexDigit (v : Nat) (h : v < 16) : hexValue? (hexDigit v) = some v := by
  interval_cases v <;> rfl

/-- A valid opaque colour whose channels are 8-bit values is the colour its name denotes. -/
theorem QColor.fromName_name_opaque (r g b : Nat) (hr : r < 256) (hg : g < 256) (hb : b < 256) :
    QColor.fromName (QColor.name ⟨true, 65535, r * 257, g * 257, b * 257⟩)
      = ⟨true, 65535, r * 257, g * 257, b * 257⟩ := by
  have e1 : ∀ v, v < 256 → v * 257 / 256 % 256 = v := by
    intro v hv
    have h1 : v * 257 = v + v * 256 := by omega
    rw [h1, Nat.add_mul_div_right _ _ (by decide), Nat.div_eq_of_lt hv, Nat.zero_add,
      Nat.mod_eq_of_lt hv]
  have e2 : ∀ v, v < 256 → (16 * (v / 16) + v % 16) * 257 = v * 257 := by intro v hv; omega
  have d1 : ∀ v, v < 256 → v / 16 < 16 := by intro v hv; omega
  have d2 : ∀ v, v % 16 < 16 := by intro v; omega
  simp only [QColor.name, QColor.fromName, e1 r hr, e1 g hg, e1 b hb,
    hexValue?_hexDigit _ (d1 r hr), hexValue?_hexDigit _ (d2 r),
    hexValue?_hexDigit _ (d1 g hg), hexValue?_hexDigit _ (d2 g),
    hexValue?_hexDigit _ (d1 b hb), hexValue?_hexDigit _ (d2 b),
    e2 r hr, e2 g hg, e2 b hb]

/-- Claim C20: for every marker `m`, `Marker::toJson(m)` is an object with exactly the
seven keys `color`, `createTime`, `createdBy`, `id`, `note`, `x`, `y` (in the key
order of a `QJsonObject`), `x` and `y` holding the coordinates of the position;
the object `ApiClient::addMarker(m)` posts equals `Marker::toJson(m)`; and
`Marker::fromJson` reads from it the id, note and createdBy of `m`. -/
theorem addMarker_posts_toJson (m : Marker) :
    (Marker.toJson m).map Prod.fst =
        [utf16 "color", utf16 "createTime", utf16 "createdBy", utf16 "id", utf16 "note",
          utf16 "x", utf16 "y"] ∧
      QJsonObject.value (Marker.toJson m) "x" = .double m.position.x ∧
      QJsonObject.value (Marker.toJson m) "y" = .double m.position.y ∧
      ApiClient.addMarkerJson m = Marker.toJson m ∧
      (Marker.fromJson (ApiClient.addMarkerJson m)).id = m.id ∧
      (Marker.fromJson (ApiClient.addMarkerJson m)).note = m.note ∧
      (Marker.fromJson (ApiClient.addMarkerJson m)).createdBy = m.createdBy :=
  ⟨rfl, rfl, rfl, rfl, rfl, rfl, rfl⟩

namespace HttpServer

theorem loadData_saveData (S : List MapSnapshot) (old : Option QJsonDocument) :
    (construct (saveData ⟨S, old⟩).dataFile).m_snapshots
      = S.map fun snap => MapSnapshot.fromJson snap.toJson := by
  show ((S.map fun snapshot => QJsonValue.object snapshot.toJson).map
      fun value => MapSnapshot.fromJson value.toObject) = _
  rw [List.map_map]
  rfl

/-- Claim C13, as the code has it: writing a snapshot sequence `S` with `saveData` and
reading the file back with `loadData` in a newly constructed server yields, snapshot for
snapshot and marker for marker in the same order, the snapshots of `S` with
every time replaced by what its `Qt::ISODate` text denotes and every colour by
what its `#RRGGBB` name denotes. So length and order are those of `S`, every
marker keeps its id, position, note and createdBy, and colours are kept when
every colour is a valid opaque colour with 8-bit channels. -/
theorem load_save_round_trip (S : List MapSnapshot) (old : Option QJsonDocument) :
    (construct (saveData ⟨S, old⟩).dataFile).m_snapshots
        = S.map (fun snap =>
            { snap with
              timestamp := QDateTime.fromStringISODate snap.timestamp.toStringISODate
              markers := snap.markers.map fun m =>
                { m with
                  color := QColor.fromName m.color.name
                  createTime :=
                    QDateTime.fromStringISODate m.createTime.toStringISODate } }) ∧
      (construct (saveData ⟨S, old⟩).dataFile).m_snapshots.length
        = S.length ∧
      (construct (saveData ⟨S, old⟩).dataFile).m_snapshots.map
          (fun snap => snap.markers.map fun m => (m.id, m.position, m.note, m.createdBy))
        = S.map (fun snap => snap.markers.map fun m =>
            (m.id, m.position, m.note, m.createdBy)) ∧
      ((∀ snap ∈ S, ∀ m ∈ snap.markers, ∃ r g b, r < 256 ∧ g < 256 ∧ b < 256 ∧
          m.color = ⟨true, 65535, r * 257, g * 257, b * 257⟩) →
        (construct (saveData ⟨S, old⟩).dataFile).m_snapshots.map
            (fun snap => snap.markers.map fun m => m.color)
          = S.map (fun snap => snap.markers.map fun m => m.color)) := by
  have hload := loadData_saveData S old
  have hfull : (construct (saveData ⟨S, old⟩).dataFile).m_snapshots
        = S.map (fun snap =>
            { snap with
              timestamp := QDateTime.fromStringISODate snap.timestamp.toStringISODate
              markers := snap.markers.map fun m =>
                { m with
                  color := QColor.fromName m.color.name
                  createTime :=
                    QDateTime.fromStringISODate m.createTime.toStringISODate } }) := by
    rw [hload]
    apply List.map_congr_left
    intro snap _
    rw [MapSnapshot.snapshot_fromJson_of_toJson]
    congr 1
  refine ⟨hfull, ?_, ?_, ?_⟩
  · rw [hfull, List.length_map]
  · rw [hfull, List.map_map]
    apply List.map_congr_left
    intro snap _
    simp only [Function.comp, List.map_map]
    rfl
  · intro hcol
    rw [hfull, List.map_map]
    apply List.map_congr_left
    intro snap hsnap
    simp only [Function.comp, List.map_map]
    apply List.map_congr_left
    intro m hm
    obtain ⟨r, g, b, hr, hg, hb, hc⟩ := hcol snap hsnap m hm
    simp only [Function.comp, hc]
    exact QColor.fromName_name_opaque r g b hr hg hb

/-- Counterexample to claim C13 as stated: a log of one snapshot whose marker was
created at half past a second with a half transparent colour. After `saveData`
and `loadData` the marker has a time of whole seconds and an opaque colour, so
it has neither the createTime nor the color it had. -/
theorem load_save_counterexample :
    (construct (saveData
          ⟨[MapSnapshot.create (sampleEnv 1) [sampleFineMarker] []], none⟩).dataFile
      ).m_snapshots.map (fun snap => snap.markers.map fun m => (m.createTime, m.color))
        = [[(⟨true, 1704067200000⟩, ⟨true, 65535, 65535, 0, 0⟩)]] ∧
      [MapSnapshot.create (sampleEnv 1) [sampleFineMarker] []].map
          (fun snap => snap.markers.map fun m => (m.createTime, m.color))
        = [[(⟨true, 1704067200500⟩, ⟨true, 32768, 65535, 0, 0⟩)]] ∧
      (construct (saveData
          ⟨[MapSnapshot.create (sampleEnv 1) [sampleFineMarker] []], none⟩).dataFile
      ).m_snapshots ≠ [MapSnapshot.create (sampleEnv 1) [sampleFineMarker] []] := by
  decide

end HttpServer

/-! ## The request handler -/

namespace HttpServer

theorem removeFirst_none {markerId : QString} {l : List Marker} :
    removeFirst markerId l = none ↔ ∀ m ∈ l, m.id ≠ markerId := by
  induction l with
  | nil => simp [removeFirst]
  | cons x xs ih =>
    unfold removeFirst
    by_cases h : x.id = markerId
    · simp [h]
    · rw [if_neg h]
      simp only [Option.map_eq_none', ih, List.mem_cons, forall_eq_or_imp]
      exact ⟨fun hx => ⟨h, hx⟩, fun hx => hx.2⟩

theorem removeFirst_some {markerId : QString} {l : List Marker} {d : Marker}
    {r : List Marker} (h : removeFirst markerId l = some (d, r)) :
    ∃ before after, l = before ++ d :: after ∧ d.id = markerId ∧
      (∀ m ∈ before, m.id ≠ markerId) ∧ r = before ++ after := by
  induction l generalizing d r with
  | nil => simp [removeFirst] at h
  | cons x xs ih =>
    unfold removeFirst at h
    by_cases hx : x.id = markerId
    · rw [if_pos hx] at h
      simp only [Option.some.injEq, Prod.mk.injEq] at h
      obtain ⟨h1, h2⟩ := h
      subst h1 h2
      exact ⟨[], xs, rfl, hx, by simp, rfl⟩
    · rw [if_neg hx] at h
      rcases hrec : removeFirst markerId xs with _ | ⟨d2, r2⟩
      · rw [hrec] at h; simp at h
      · rw [hrec] at h
        simp only [Option.map_some', Option.some.injEq, Prod.mk.injEq] at h
        obtain ⟨h1, h2⟩ := h
        subst h1 h2
        obtain ⟨before, after, hl, hd, hb, hr⟩ := ih hrec
        refine ⟨x :: before, after, by rw [hl]; rfl, hd, ?_, by rw [hr]; rfl⟩
        intro m hm
        rcases List.mem_cons.1 hm with hm | hm
        · subst hm; exact hx
        · exact hb m hm

theorem handleRequest_get (s : HttpServer) (body : QJsonDocument) (e : Env) :
    handleRequest s (utf16 "GET") (utf16 "/api/map/snapshots") body e =
      (⟨200, .array (s.m_snapshots.map fun snapshot => .object snapshot.toJson)⟩, s) := by
  unfold handleRequest
  rw [if_pos ⟨rfl, rfl⟩]

theorem handleRequest_postMarker (s : HttpServer) (body : QJsonDocument) (e : Env) :
    handleRequest s (utf16 "POST") (utf16 "/api/map/markers") body e =
      if !body.isObject then (⟨400, .text (utf16 "Invalid JSON")⟩, s)
      else
        (⟨201, .object (Marker.fromJson body.toObject).toJson⟩,
          saveData { s with m_snapshots := s.m_snapshots ++
            [MapSnapshot.create e
              ((match s.m_snapshots.getLast? with
                | some last => last.markers
                | none => []) ++ [Marker.fromJson body.toObject])
              (utf16 "添加标记: " ++ (Marker.fromJson body.toObject).note.left 20)] }) := by
  unfold handleRequest
  rw [if_neg (by decide), if_pos ⟨rfl, rfl⟩]

theorem handleRequest_delete (s : HttpServer) (markerId : QString) (body : QJsonDocument)
    (e : Env) :
    handleRequest s (utf16 "DELETE") (utf16 "/api/map/markers/" ++ markerId) body e =
      match s.m_snapshots.getLast? with
      | none => (⟨404, .text (utf16 "No snapshots found")⟩, s)
      | some last =>
        match removeFirst markerId last.markers with
        | none => (⟨404, .text (utf16 "Marker not found")⟩, s)
        | some (deletedMarker, currentMarkers) =>
          (⟨200, .object (QJsonObject.set [] "markerId" (.string markerId))⟩,
            saveData { s with m_snapshots := s.m_snapshots ++
              [MapSnapshot.create e currentMarkers
                (utf16 "删除标记: " ++ deletedMarker.note.left 20)] }) := by
  have hp : (utf16 "/api/map/markers/").isPrefixOf (utf16 "/api/map/markers/" ++ markerId)
      = true := by
    rw [List.isPrefixOf_iff_prefix]
    exact List.prefix_append _ _
  have hd : (utf16 "/api/map/markers/" ++ markerId).drop (utf16 "/api/map/markers/").length
      = markerId := List.drop_left _ _
  have hg : utf16 "DELETE" ≠ utf16 "GET" := by decide
  have hpo : utf16 "DELETE" ≠ utf16 "POST" := by decide
  unfold handleRequest
  rw [if_neg (fun h => hg h.1), if_neg (fun h => hpo h.1), if_pos ⟨rfl, hp⟩]
  simp only [hd]

theorem handleRequest_batch (s : HttpServer) (body : QJsonDocument) (e : Env) :
    handleRequest s (utf16 "POST") (utf16 "/api/map/snapshots/batch") body e =
      if !body.isArray then (⟨400, .text (utf16 "Invalid JSON array")⟩, s)
      else
        (⟨201, .object (QJsonObject.set [] "message"
            (.string (utf16 "Uploaded " ++ utf16 (toString body.toArray.length) ++
              utf16 " snapshots")))⟩,
          saveData { s with m_snapshots := s.m_snapshots ++
            body.toArray.map fun value => MapSnapshot.fromJson value.toObject }) := by
  unfold handleRequest
  rw [if_neg (by decide), if_neg (by decide), if_neg (by decide), if_pos ⟨rfl, rfl⟩]

end HttpServer

namespace HttpServer

/-- Claim C14: for every server log and every request `POST /api/map/markers`: a body
that is not a JSON object is answered with 400 and changes nothing; a body that
is the JSON object `obj` is answered with 201 and the JSON form of the marker
`Marker::fromJson(obj)`, and the log grows by exactly one snapshot whose markers
are those of the previous last snapshot (none for an empty log) followed by
that marker. -/
theorem post_marker_request (s : HttpServer) (body : QJsonDocument) (e : Env) :
    (body.isObject = false →
      (handleRequest s (utf16 "POST") (utf16 "/api/map/markers") body e).1.statusCode = 400 ∧
      (handleRequest s (utf16 "POST") (utf16 "/api/map/markers") body e).2 = s) ∧
    (∀ obj, body = .object obj →
      (handleRequest s (utf16 "POST") (utf16 "/api/map/markers") body e).1.statusCode = 201 ∧
      (handleRequest s (utf16 "POST") (utf16 "/api/map/markers") body e).1.payload
        = .object (Marker.toJson (Marker.fromJson obj)) ∧
      ∃ snap,
        (handleRequest s (utf16 "POST") (utf16 "/api/map/markers") body e).2.m_snapshots
          = s.m_snapshots ++ [snap] ∧
        snap.markers = (s.m_snapshots.getLast?.map MapSnapshot.markers).getD []
          ++ [Marker.fromJson obj]) := by
  rw [handleRequest_postMarker]
  constructor
  · intro h
    rw [h]
    exact ⟨rfl, rfl⟩
  · intro obj hobj
    subst hobj
    refine ⟨rfl, rfl, _, rfl, ?_⟩
    cases s.m_snapshots.getLast? <;> rfl

/-- Witness for C14: posting the JSON form of marker 2 to the sample server, and
posting a body that is no JSON object. -/
theorem post_marker_request_witness :
    ((handleRequest sampleServer (utf16 "POST") (utf16 "/api/map/markers")
        (.object (Marker.toJson (sampleMarker 2))) (sampleEnv 2)).1.statusCode = 201 ∧
      (handleRequest sampleServer (utf16 "POST") (utf16 "/api/map/markers")
        (.object (Marker.toJson (sampleMarker 2))) (sampleEnv 2)).1.payload
        = .object (Marker.toJson (Marker.fromJson (Marker.toJson (sampleMarker 2)))) ∧
      ∃ snap,
        (handleRequest sampleServer (utf16 "POST") (utf16 "/api/map/markers")
          (.object (Marker.toJson (sampleMarker 2))) (sampleEnv 2)).2.m_snapshots
          = sampleServer.m_snapshots ++ [snap] ∧
        snap.markers = (sampleServer.m_snapshots.getLast?.map MapSnapshot.markers).getD []
          ++ [Marker.fromJson (Marker.toJson (sampleMarker 2))]) ∧
    ((handleRequest sampleServer (utf16 "POST") (utf16 "/api/map/markers") .null
        (sampleEnv 2)).1.statusCode = 400 ∧
      (handleRequest sampleServer (utf16 "POST") (utf16 "/api/map/markers") .null
        (sampleEnv 2)).2 = sampleServer) :=
  ⟨(post_marker_request sampleServer (.object (Marker.toJson (sampleMarker 2)))
      (sampleEnv 2)).2 _ rfl,
    (post_marker_request sampleServer .null (sampleEnv 2)).1 rfl⟩

/-- Claim C15: for every server log and every request `DELETE /api/map/markers/{id}`:
the answer is 404 exactly when the log is empty or no marker of the last
snapshot has that id (older snapshots are not looked at), and then nothing
changes; otherwise the answer is 200 with the object `{"markerId": id}` and the
log grows by exactly one snapshot whose markers are those of the last snapshot
without the first marker of that id, the others in their order. -/
theorem delete_marker_request (s : HttpServer) (markerId : QString) (body : QJsonDocument)
    (e : Env) :
    ((handleRequest s (utf16 "DELETE") (utf16 "/api/map/markers/" ++ markerId) body
        e).1.statusCode = 404 ↔
      (s.m_snapshots = [] ∨
        ∃ last, s.m_snapshots.getLast? = some last ∧ ∀ m ∈ last.markers, m.id ≠ markerId)) ∧
    ((handleRequest s (utf16 "DELETE") (utf16 "/api/map/markers/" ++ markerId) body
        e).1.statusCode = 404 →
      (handleRequest s (utf16 "DELETE") (utf16 "/api/map/markers/" ++ markerId) body e).2 = s) ∧
    ((handleRequest s (utf16 "DELETE") (utf16 "/api/map/markers/" ++ markerId) body
        e).1.statusCode ≠ 404 →
      (handleRequest s (utf16 "DELETE") (utf16 "/api/map/markers/" ++ markerId) body
        e).1.statusCode = 200 ∧
      (handleRequest s (utf16 "DELETE") (utf16 "/api/map/markers/" ++ markerId) body
        e).1.payload = .object [(utf16 "markerId", .string markerId)] ∧
      ∃ last before removed after snap,
        s.m_snapshots.getLast? = some last ∧
        last.markers = before ++ removed :: after ∧
        removed.id = markerId ∧ (∀ m ∈ before, m.id ≠ markerId) ∧
        snap.markers = before ++ after ∧
        (handleRequest s (utf16 "DELETE") (utf16 "/api/map/markers/" ++ markerId) body
          e).2.m_snapshots = s.m_snapshots ++ [snap]) := by
  rw [handleRequest_delete]
  rcases hlast : s.m_snapshots.getLast? with _ | last
  · have hnil : s.m_snapshots = [] := List.getLast?_eq_none_iff.1 hlast
    refine ⟨⟨fun _ => Or.inl hnil, fun _ => rfl⟩, fun _ => rfl, fun h => absurd rfl h⟩
  · have hne : s.m_snapshots ≠ [] := by
      intro h
      rw [h] at hlast
      cases hlast
    dsimp only
    rcases hrem : removeFirst markerId last.markers with _ | ⟨removed, rest⟩
    · have hno := removeFirst_none.1 hrem
      refine ⟨⟨fun _ => Or.inr ⟨last, rfl, hno⟩, fun _ => rfl⟩, fun _ => rfl,
        fun h => absurd rfl h⟩
    · obtain ⟨before, after, hl, hid, hb, hr⟩ := removeFirst_some hrem
      refine ⟨⟨fun h => ?_, fun h => ?_⟩, fun h => ?_, fun _ => ?_⟩
      · simp at h
      · rcases h with h | ⟨last2, h2, hno⟩
        · exact absurd h hne
        · cases h2
          exact absurd hid (hno removed (by rw [hl]; simp))
      · simp at h
      · exact ⟨rfl, rfl, last, before, removed, after, _, rfl, hl, hid, hb, hr, rfl⟩

/-- Witness for C15: on the sample server, whose last snapshot holds marker 1 only,
deleting the id of marker 2 is answered with 404 and changes nothing, and
deleting the id of marker 1 is answered with 200 and appends a snapshot
without markers. -/
theorem delete_marker_request_witness :
    ((handleRequest sampleServer (utf16 "DELETE")
        (utf16 "/api/map/markers/" ++ (sampleMarker 2).id) .null (sampleEnv 2)).1.statusCode
        = 404 ∧
      (handleRequest sampleServer (utf16 "DELETE")
        (utf16 "/api/map/markers/" ++ (sampleMarker 2).id) .null (sampleEnv 2)).2
        = sampleServer) ∧
    ((handleRequest sampleServer (utf16 "DELETE")
        (utf16 "/api/map/markers/" ++ (sampleMarker 1).id) .null (sampleEnv 2)).1.statusCode
        = 200 ∧
      (handleRequest sampleServer (utf16 "DELETE")
        (utf16 "/api/map/markers/" ++ (sampleMarker 1).id) .null
        (sampleEnv 2)).2.m_snapshots.map MapSnapshot.markers = [[sampleMarker 1], []]) :=
  have h := delete_marker_request sampleServer (sampleMarker 2).id .null (sampleEnv 2)
  have h404 := h.1.2 (Or.inr ⟨sampleSnapshot 1 [1], rfl, by decide⟩)
  have h200 := (delete_marker_request sampleServer (sampleMarker 1).id .null
    (sampleEnv 2)).2.2 (by decide)
  ⟨⟨h404, h.2.1 h404⟩, h200.1, by decide⟩

/-- Claim C16: for every server log and every request `POST /api/map/snapshots/batch`:
a body that is not a JSON array is answered with 400 and changes nothing; a
body that is a JSON array of `N` items is answered with 201 and the message
`Uploaded N snapshots`, and the log becomes the old log followed by the `N`
snapshots the items denote, in request order, none left out or merged; for a
body that is the JSON form of snapshots that their JSON form denotes again,
the log becomes the old log followed by exactly these snapshots. -/
theorem batch_upload_request (s : HttpServer) (body : QJsonDocument) (e : Env) :
    (body.isArray = false →
      (handleRequest s (utf16 "POST") (utf16 "/api/map/snapshots/batch") body e).1.statusCode
        = 400 ∧
      (handleRequest s (utf16 "POST") (utf16 "/api/map/snapshots/batch") body e).2 = s) ∧
    (∀ items : QJsonArray, body = .array items →
      (handleRequest s (utf16 "POST") (utf16 "/api/map/snapshots/batch") body e).1.statusCode
        = 201 ∧
      (handleRequest s (utf16 "POST") (utf16 "/api/map/snapshots/batch") body e).1.payload
        = .object [(utf16 "message",
            .string (utf16 "Uploaded " ++ utf16 (toString items.length) ++
              utf16 " snapshots"))] ∧
      (handleRequest s (utf16 "POST") (utf16 "/api/map/snapshots/batch") body e).2.m_snapshots
        = s.m_snapshots ++ items.map (fun item => MapSnapshot.fromJson item.toObject) ∧
      (handleRequest s (utf16 "POST") (utf16 "/api/map/snapshots/batch") body
        e).2.m_snapshots.length = s.m_snapshots.length + items.length) ∧
    (∀ batch : List MapSnapshot,
      body = .array (batch.map fun B => .object (MapSnapshot.toJson B)) →
      (∀ B ∈ batch, MapSnapshot.fromJson (MapSnapshot.toJson B) = B) →
      (handleRequest s (utf16 "POST") (utf16 "/api/map/snapshots/batch") body e).2.m_snapshots
        = s.m_snapshots ++ batch) := by
  rw [handleRequest_batch]
  refine ⟨?_, ?_, ?_⟩
  · intro h
    rw [h]
    exact ⟨rfl, rfl⟩
  · intro items hitems
    subst hitems
    refine ⟨rfl, rfl, rfl, ?_⟩
    show (s.m_snapshots ++ items.map _).length = _
    rw [List.length_append, List.length_map]
  · intro batch hbody hfix
    subst hbody
    show s.m_snapshots ++ (batch.map fun B => QJsonValue.object (MapSnapshot.toJson B)).map
      (fun item => MapSnapshot.fromJson item.toObject) = _
    rw [List.map_map]
    congr 1
    have : batch.map ((fun item => MapSnapshot.fromJson item.toObject) ∘
        fun B => QJsonValue.object (MapSnapshot.toJson B)) = batch.map id := by
      apply List.map_congr_left
      intro B hB
      exact hfix B hB
    rw [this, List.map_id]

/-- Witness for C16: the sample server holds one snapshot; a batch of two, the first
a copy of the one already stored, leaves a log of three in request order. -/
theorem batch_upload_request_witness :
    (handleRequest sampleServer (utf16 "POST") (utf16 "/api/map/snapshots/batch")
        (.array [.object (sampleSnapshot 1 [1]).toJson, .object (sampleSnapshot 2 [1, 2]).toJson])
        (sampleEnv 3)).2.m_snapshots
      = [sampleSnapshot 1 [1], sampleSnapshot 1 [1], sampleSnapshot 2 [1, 2]] ∧
    (handleRequest sampleServer (utf16 "POST") (utf16 "/api/map/snapshots/batch")
        (.array [.object (sampleSnapshot 1 [1]).toJson, .object (sampleSnapshot 2 [1, 2]).toJson])
        (sampleEnv 3)).1.payload
      = .object [(utf16 "message", .string (utf16 "Uploaded 2 snapshots"))] :=
  have h := (batch_upload_request sampleServer
    (.array [.object (sampleSnapshot 1 [1]).toJson, .object (sampleSnapshot 2 [1, 2]).toJson])
    (sampleEnv 3)).2.1 _ rfl
  ⟨by rw [h.2.2.1]; decide, by rw [h.2.1]; rfl⟩

theorem handleRequest_cases (s : HttpServer) (method path : QString) (body : QJsonDocument)
    (e : Env) :
    (handleRequest s method path body e).2 = s ∨
      (handleRequest s method path body e).1.statusCode = 200 ∨
      (handleRequest s method path body e).1.statusCode = 201 := by
  unfold handleRequest
  repeat' split
  all_goals try dsimp only
  all_goals repeat' split
  all_goals first
    | exact Or.inl rfl
    | exact Or.inr (Or.inl rfl)
    | exact Or.inr (Or.inr rfl)

/-- Claim C17: for every server log and every request, whatever its method, path and
body, a response with status 400 or 404 leaves the server as it was: the log is
unchanged and nothing is written to the data file. -/
theorem failed_request_changes_nothing (s : HttpServer) (method path : QString)
    (body : QJsonDocument) (e : Env)
    (h : (handleRequest s method path body e).1.statusCode = 400 ∨
      (handleRequest s method path body e).1.statusCode = 404) :
    (handleRequest s method path body e).2 = s ∧
      (handleRequest s method path body e).2.m_snapshots = s.m_snapshots ∧
      (handleRequest s method path body e).2.dataFile = s.dataFile := by
  have hs : (handleRequest s method path body e).2 = s := by
    rcases handleRequest_cases s method path body e with hc | hc | hc
    · exact hc
    · rcases h with h | h <;> rw [hc] at h <;> exact absurd h (by decide)
    · rcases h with h | h <;> rw [hc] at h <;> exact absurd h (by decide)
  exact ⟨hs, by rw [hs], by rw [hs]⟩

/-- Witness for C17: `DELETE /api/map/markers/does-not-exist` on the sample server,
whose log is not empty, is answered with 404 and leaves log and file untouched. -/
theorem failed_request_changes_nothing_witness :
    sampleServer.m_snapshots ≠ [] ∧
      (handleRequest sampleServer (utf16 "DELETE") (utf16 "/api/map/markers/does-not-exist")
        .null (sampleEnv 2)).1.statusCode = 404 ∧
      (handleRequest sampleServer (utf16 "DELETE") (utf16 "/api/map/markers/does-not-exist")
        .null (sampleEnv 2)).2 = sampleServer :=
  ⟨by decide, by decide,
    (failed_request_changes_nothing sampleServer (utf16 "DELETE")
      (utf16 "/api/map/markers/does-not-exist") .null (sampleEnv 2) (Or.inr (by decide))).1⟩

/-- Claim C18: for every server log, `GET /api/map/snapshots` is answered with status
200 and the JSON array of the JSON forms of all snapshots of the log, one item per
snapshot in log order, and leaves the server as it was. -/
theorem get_snapshots_request (s : HttpServer) (body : QJsonDocument) (e : Env) :
    (handleRequest s (utf16 "GET") (utf16 "/api/map/snapshots") body e).1.statusCode = 200 ∧
      (handleRequest s (utf16 "GET") (utf16 "/api/map/snapshots") body e).1.payload
        = .array (s.m_snapshots.map fun snapshot => .object (MapSnapshot.toJson snapshot)) ∧
      (handleRequest s (utf16 "GET") (utf16 "/api/map/snapshots") body e).2 = s := by
  rw [handleRequest_get]
  exact ⟨rfl, rfl, rfl⟩

/-- Claim C19: every request whose method and path are not `GET /api/map/snapshots`,
`POST /api/map/markers`, `DELETE` with a path that starts with
`/api/map/markers/`, or `POST /api/map/snapshots/batch` is answered with 404
`Not Found` and changes nothing. -/
theorem unknown_route_not_found (s : HttpServer) (method path : QString)
    (body : QJsonDocument) (e : Env)
    (h1 : ¬ (method = utf16 "GET" ∧ path = utf16 "/api/map/snapshots"))
    (h2 : ¬ (method = utf16 "POST" ∧ path = utf16 "/api/map/markers"))
    (h3 : ¬ (method = utf16 "DELETE" ∧ utf16 "/api/map/markers/" <+: path))
    (h4 : ¬ (method = utf16 "POST" ∧ path = utf16 "/api/map/snapshots/batch")) :
    (handleRequest s method path body e).1.statusCode = 404 ∧
      (handleRequest s method path body e).1.payload = .text (utf16 "Not Found") ∧
      (handleRequest s method path body e).2 = s := by
  have h3b : ¬ (method = utf16 "DELETE" ∧
      (utf16 "/api/map/markers/").isPrefixOf path = true) := by
    rw [List.isPrefixOf_iff_prefix]
    exact h3
  unfold handleRequest
  rw [if_neg h1, if_neg h2, if_neg h3b, if_neg h4]
  exact ⟨rfl, rfl, rfl⟩

/-- Witness for C19: `GET /api/map/markers`, `POST /api/map/snapshots`,
`DELETE /api/map/markers` without a trailing id segment and `PUT /api/map/snapshots`
are answered with 404. -/
theorem unknown_route_not_found_witness :
    (handleRequest sampleServer (utf16 "GET") (utf16 "/api/map/markers") .null
        (sampleEnv 2)).1.statusCode = 404 ∧
      (handleRequest sampleServer (utf16 "POST") (utf16 "/api/map/snapshots") .null
        (sampleEnv 2)).1.statusCode = 404 ∧
      (handleRequest sampleServer (utf16 "DELETE") (utf16 "/api/map/markers") .null
        (sampleEnv 2)).1.statusCode = 404 ∧
      (handleRequest sampleServer (utf16 "PUT") (utf16 "/api/map/snapshots") .null
        (sampleEnv 2)).1.statusCode = 404 :=
  ⟨(unknown_route_not_found sampleServer (utf16 "GET") (utf16 "/api/map/markers") .null
      (sampleEnv 2) (by decide) (by decide) (by decide) (by decide)).1,
    (unknown_route_not_found sampleServer (utf16 "POST") (utf16 "/api/map/snapshots") .null
      (sampleEnv 2) (by decide) (by decide) (by decide) (by decide)).1,
    (unknown_route_not_found sampleServer (utf16 "DELETE") (utf16 "/api/map/markers") .null
      (sampleEnv 2) (by decide) (by decide) (by decide) (by decide)).1,
    (unknown_route_not_found sampleServer (utf16 "PUT") (utf16 "/api/map/snapshots") .null
      (sampleEnv 2) (by decide) (by decide) (by decide) (by decide)).1⟩

end HttpServer

/-! ## Uniqueness of ids and append-only log on the server -/

namespace HttpServer

theorem lastMarkers_nodup (s : HttpServer)
    (hL : ∀ snap ∈ s.m_snapshots, (snap.markers.map Marker.id).Nodup) :
    (s.lastMarkers.map Marker.id).Nodup := by
  unfold lastMarkers
  rcases hlast : s.m_snapshots.getLast? with _ | last
  · exact List.nodup_nil
  · exact hL last (List.mem_of_getLast?_eq_some hlast)

theorem postMarker_snapshots (s : HttpServer) (obj : QJsonObject) (e : Env) :
    ∃ snap, snap.markers = s.lastMarkers ++ [Marker.fromJson obj] ∧
      (handleRequest s (utf16 "POST") (utf16 "/api/map/markers") (.object obj) e).2.m_snapshots
        = s.m_snapshots ++ [snap] := by
  rw [handleRequest_postMarker]
  refine ⟨_, ?_, rfl⟩
  unfold lastMarkers
  cases s.m_snapshots.getLast? <;> rfl

/-- Claim C21, as the code has it: for every server log in which the markers of each
snapshot have pairwise distinct ids, after a request `POST /api/map/markers` the
markers of each snapshot of the resulting log have pairwise distinct ids exactly
when the body is not a JSON object (nothing is appended) or the id of the
parsed marker is not among the ids of the last snapshot. -/
theorem post_marker_ids_distinct_iff (s : HttpServer) (body : QJsonDocument) (e : Env)
    (hL : ∀ snap ∈ s.m_snapshots, (snap.markers.map Marker.id).Nodup) :
    (∀ snap ∈ (handleRequest s (utf16 "POST") (utf16 "/api/map/markers") body
        e).2.m_snapshots, (snap.markers.map Marker.id).Nodup) ↔
      (body.isObject = false ∨
        (Marker.fromJson body.toObject).id ∉ s.lastMarkers.map Marker.id) := by
  cases body with
  | object obj =>
    obtain ⟨snap, hm, hs⟩ := postMarker_snapshots s obj e
    rw [hs]
    have hlast := lastMarkers_nodup s hL
    have hnew : (snap.markers.map Marker.id).Nodup ↔
        (Marker.fromJson obj).id ∉ s.lastMarkers.map Marker.id := by
      rw [hm, List.map_append, List.map_singleton, List.nodup_append]
      constructor
      · intro h hmem
        exact h.2.2 hmem (List.mem_singleton_self _)
      · intro h
        refine ⟨hlast, List.nodup_singleton _, ?_⟩
        intro a ha hb
        rw [List.mem_singleton] at hb
        subst hb
        exact h ha
    constructor
    · intro h
      exact Or.inr (hnew.1 (h snap (by simp)))
    · intro h snap2 hsnap2
      rcases h with h | h
      · cases h
      · rcases List.mem_append.1 hsnap2 with h2 | h2
        · exact hL snap2 h2
        · rw [List.mem_singleton] at h2
          subst h2
          exact hnew.2 h
  | null =>
    rw [handleRequest_postMarker]
    exact ⟨fun _ => Or.inl rfl, fun _ => hL⟩
  | array items =>
    rw [handleRequest_postMarker]
    exact ⟨fun _ => Or.inl rfl, fun _ => hL⟩

/-- Witness for C21: posting marker 2 to the sample server, whose log holds marker 1. -/
theorem post_marker_ids_distinct_iff_witness :
    (∀ snap ∈ sampleServer.m_snapshots, (snap.markers.map Marker.id).Nodup) ∧
      ((∀ snap ∈ (handleRequest sampleServer (utf16 "POST") (utf16 "/api/map/markers")
          (.object (Marker.toJson (sampleMarker 2))) (sampleEnv 2)).2.m_snapshots,
          (snap.markers.map Marker.id).Nodup) ↔
        ((QJsonDocument.object (Marker.toJson (sampleMarker 2))).isObject = false ∨
          (Marker.fromJson
            (QJsonDocument.object (Marker.toJson (sampleMarker 2))).toObject).id ∉
            sampleServer.lastMarkers.map Marker.id)) :=
  ⟨by decide,
    post_marker_ids_distinct_iff sampleServer (.object (Marker.toJson (sampleMarker 2)))
      (sampleEnv 2) (by decide)⟩

/-- Counterexample to claim C21 as stated: the log of the sample server has one
snapshot, with marker 1; after posting a marker with the id of marker 1 the
log has a second snapshot that holds two markers with that id. -/
theorem post_marker_ids_counterexample :
    (∀ snap ∈ sampleServer.m_snapshots, (snap.markers.map Marker.id).Nodup) ∧
      (handleRequest sampleServer (utf16 "POST") (utf16 "/api/map/markers")
          (.object (Marker.toJson (sampleMarker 1))) (sampleEnv 2)).1.statusCode = 201 ∧
      (handleRequest sampleServer (utf16 "POST") (utf16 "/api/map/markers")
          (.object (Marker.toJson (sampleMarker 1))) (sampleEnv 2)).2.m_snapshots.map
            (fun snap => snap.markers.map Marker.id)
        = [[(sampleMarker 1).id], [(sampleMarker 1).id, (sampleMarker 1).id]] ∧
      ¬ ∀ snap ∈ (handleRequest sampleServer (utf16 "POST") (utf16 "/api/map/markers")
          (.object (Marker.toJson (sampleMarker 1))) (sampleEnv 2)).2.m_snapshots,
          (snap.markers.map Marker.id).Nodup := by
  decide

/-- Claim C22: for every server log and every request, whatever its method, path and
body, the log before the request is a prefix of the log after the request. -/
theorem server_log_append_only (s : HttpServer) (method path : QString)
    (body : QJsonDocument) (e : Env) :
    s.m_snapshots <+: (handleRequest s method path body e).2.m_snapshots := by
  unfold handleRequest
  repeat' split
  all_goals try dsimp only
  all_goals repeat' split
  all_goals first
    | exact List.prefix_refl _
    | exact List.prefix_append _ _

end HttpServer

/-! ## Client and server under mirrored edits -/

namespace QMap

variable {K V : Type} [LinearOrder K]

theorem perm_insert_of_not_contains {m : QMap K V} {k : K} (v : V)
    (h : contains m k = false) : List.Perm (insert m k v) ((k, v) :: m) := by
  induction m with
  | nil => exact List.Perm.refl _
  | cons hd tl ih =>
    obtain ⟨k1, v1⟩ := hd
    have hne : ¬ k1 = k := by
      intro h1
      simp [contains, h1] at h
    have htl : contains tl k = false := by
      simpa [contains, hne] using h
    unfold insert
    split_ifs with h1 h2
    · exact List.Perm.refl _
    · exact absurd h2.symm hne
    · exact (List.Perm.cons _ (ih htl)).trans (List.Perm.swap _ _ _)

end QMap

theorem values_remove_of_keyed (m : QMap QString Marker) (hk : ∀ p ∈ m, p.1 = p.2.id)
    (k : QString) :
    QMap.values (QMap.remove m k) = (QMap.values m).filter fun x => decide (x.id ≠ k) := by
  induction m with
  | nil => rfl
  | cons hd tl ih =>
    have h1 := hk hd (List.mem_cons_self _ _)
    have h2 := ih (fun p hp => hk p (List.mem_cons_of_mem _ hp))
    unfold QMap.values QMap.remove at h2 ⊢
    by_cases hd1 : hd.1 = k
    · have hd2 : hd.2.id = k := by rw [← h1]; exact hd1
      simp only [List.filter_cons, List.map_cons, hd1, hd2, ne_eq, not_true_eq_false,
        decide_False, Bool.false_eq_true, if_false]
      exact h2
    · have hd2 : ¬ hd.2.id = k := by rw [← h1]; exact hd1
      simp only [List.filter_cons, List.map_cons, hd1, hd2, ne_eq, not_false_eq_true,
        decide_True, if_true, List.cons.injEq, true_and]
      exact h2

theorem values_ids_nodup (m : QMap QString Marker) (h : MapWF m) :
    ((QMap.values m).map Marker.id).Nodup := by
  have hkeys : (QMap.values m).map Marker.id = m.map Prod.fst := by
    unfold QMap.values
    rw [List.map_map]
    apply List.map_congr_left
    intro p hp
    exact (h.2 p hp).symm
  rw [hkeys]
  have hp : (m.map Prod.fst).Pairwise (fun a b => a < b) := by
    rw [List.pairwise_map]
    exact h.1
  exact hp.imp (fun hab => ne_of_lt hab)

namespace HttpServer

theorem removeFirst_eq_filter {markerId : QString} {l : List Marker} {d : Marker}
    {r : List Marker} (hn : (l.map Marker.id).Nodup)
    (h : removeFirst markerId l = some (d, r)) :
    r = l.filter fun x => decide (x.id ≠ markerId) := by
  obtain ⟨before, after, hl, hid, hb, hr⟩ := removeFirst_some h
  subst hl
  have hafter : ∀ m ∈ after, m.id ≠ markerId := by
    intro m hm hmid
    rw [List.map_append, List.map_cons, List.nodup_append] at hn
    have hcons := hn.2.1
    rw [List.nodup_cons] at hcons
    apply hcons.1
    rw [hid, ← hmid]
    exact List.mem_map_of_mem _ hm
  have hfb : before.filter (fun x => decide (x.id ≠ markerId)) = before := by
    rw [List.filter_eq_self]
    intro a ha
    simpa using hb a ha
  have hfa : after.filter (fun x => decide (x.id ≠ markerId)) = after := by
    rw [List.filter_eq_self]
    intro a ha
    simpa using hafter a ha
  rw [hr, List.filter_append, List.filter_cons, hfb, hfa]
  simp [hid]

theorem delete_snapshots (s : HttpServer) (markerId : QString) (body : QJsonDocument) (e : Env)
    (d : Marker) (r : List Marker) (h : removeFirst markerId s.lastMarkers = some (d, r)) :
    ∃ snap, snap.markers = r ∧
      (handleRequest s (utf16 "DELETE") (utf16 "/api/map/markers/" ++ markerId) body
        e).2.m_snapshots = s.m_snapshots ++ [snap] := by
  rw [handleRequest_delete]
  unfold lastMarkers at h
  rcases hlast : s.m_snapshots.getLast? with _ | last
  · rw [hlast] at h
    simp [removeFirst] at h
  · rw [hlast] at h
    simp only [Option.map_some', Option.getD_some] at h
    dsimp only
    rw [h]
    exact ⟨_, rfl, rfl⟩

end HttpServer


namespace Session

theorem split_append_sep (sep : Nat) (a b : QString) (h : sep ∉ a) :
    QString.split sep (a ++ sep :: b) = a :: QString.split sep b := by
  induction a with
  | nil => simp [QString.split]
  | cons c cs ih =>
    have hc : ¬ c = sep := fun hc => h (hc ▸ List.mem_cons_self _ _)
    have hcs : sep ∉ cs := fun hm => h (List.mem_cons_of_mem _ hm)
    have hstep : QString.split sep (c :: (cs ++ sep :: b))
        = (if c = sep then [] :: QString.split sep (cs ++ sep :: b)
            else match QString.split sep (cs ++ sep :: b) with
              | [] => [[c]]
              | part :: parts => (c :: part) :: parts) := rfl
    show QString.split sep (c :: (cs ++ sep :: b)) = _
    rw [hstep, if_neg hc, ih hcs]

theorem space_not_mem_of_plain (path : QString) (h : path.all pathUnit = true) :
    32 ∉ path := by
  intro hm
  have := List.all_eq_true.1 h 32 hm
  exact absurd this (by decide)

theorem onRequestReady_plain (encodePath : QString → QString)
    (hlaw : WritesPlainPaths encodePath) (s : HttpServer) (verb : String) (path : QString)
    (hverb : 32 ∉ utf16 verb) (hpath : path.all pathUnit = true) (body : QJsonDocument)
    (e : Env) :
    HttpServer.onRequestReady s (requestLine encodePath verb path) body e
      = HttpServer.handleRequest s (utf16 verb) path body e := by
  have hsplit : QString.split 32 (requestLine encodePath verb path)
      = utf16 verb :: path :: QString.split 32 (utf16 "HTTP/1.1") := by
    unfold requestLine
    rw [hlaw path hpath]
    have h1 : utf16 verb ++ [32] ++ path ++ utf16 " HTTP/1.1"
        = utf16 verb ++ 32 :: (path ++ 32 :: utf16 "HTTP/1.1") := by
      have h2 : utf16 " HTTP/1.1" = 32 :: utf16 "HTTP/1.1" := by decide
      rw [h2]
      simp
    rw [h1, split_append_sep 32 _ _ hverb,
      split_append_sep 32 _ _ (space_not_mem_of_plain path hpath)]
  unfold HttpServer.onRequestReady
  rw [hsplit]

theorem addPath_eq : ApiClient.buildPath (utf16 "/map/markers") = utf16 "/api/map/markers" := by
  decide

theorem deletePath_eq (markerId : QString) :
    ApiClient.buildPath (utf16 "/map/markers/" ++ markerId)
      = utf16 "/api/map/markers/" ++ markerId := by
  have h : utf16 "/api" ++ utf16 "/map/markers/" = utf16 "/api/map/markers/" := by decide
  unfold ApiClient.buildPath
  rw [← List.append_assoc, h]

theorem deletePath_plain (markerId : QString) (h : markerId.all idUnit = true) :
    (utf16 "/api/map/markers/" ++ markerId).all pathUnit = true := by
  rw [List.all_append]
  have h1 : (utf16 "/api/map/markers/").all pathUnit = true := by decide
  have h2 : markerId.all pathUnit = true := by
    rw [List.all_eq_true] at h ⊢
    intro c hc
    simp [pathUnit, h c hc]
  rw [h1, h2]
  rfl

theorem tipMarkers_append (snaps : List MapSnapshot) (snap : MapSnapshot) (idx : Int)
    (m : QMap QString Marker) :
    MarkerManager.tipMarkers
      { m_snapshots := snaps ++ [snap], m_currentSnapshotIndex := idx, m_currentMarkers := m }
      = snap.markers := by
  simp [MarkerManager.tipMarkers]

theorem lastMarkers_of_append (s : HttpServer) (old : List MapSnapshot) (snap : MapSnapshot)
    (h : s.m_snapshots = old ++ [snap]) : s.lastMarkers = snap.markers := by
  simp [HttpServer.lastMarkers, h]

theorem inStep_start (dataFile : Option QJsonDocument) : InStep (start dataFile) := by
  refine ⟨MarkerManager.coherent_init, ?_, rfl, ?_, rfl, List.Perm.refl _⟩
  · simp [start, MarkerManager.AtTip, MarkerManager.init]
  · intro p hp
    cases hp

theorem inStep_add (encodePath : QString → QString) (hlaw : WritesPlainPaths encodePath)
    (w : Session) (h : InStep w) (marker : Marker) (clientEnv serverEnv : Env)
    (hfresh : QMap.contains w.client.m_currentMarkers marker.id = false)
    (hplain : marker.id.all idUnit = true) :
    InStep (MainWindow.onAddMarkerRequested encodePath w marker clientEnv serverEnv) := by
  obtain ⟨hc, ht, htip, hkeys, hlen, hperm⟩ := h
  unfold MainWindow.onAddMarkerRequested
  split_ifs
  swap
  · exact ⟨hc, ht, htip, hkeys, hlen, hperm⟩
  rw [addPath_eq, onRequestReady_plain encodePath hlaw _ "POST" _ (by decide) (by decide)]
  obtain ⟨snap, hsnap, hserver⟩ :=
    HttpServer.postMarker_snapshots w.server (ApiClient.addMarkerJson marker) serverEnv
  have hclient := MarkerManager.addMarker_atTip_eq w.client hc ht marker
    MainWindow.currentUser clientEnv
  have hco := MarkerManager.coherent_addMarker w.client marker MainWindow.currentUser
    clientEnv hc
  refine ⟨hco, ?_, ?_, ?_, ?_, ?_⟩
  · rw [hclient]
    simp [MarkerManager.AtTip]
  · rw [hclient]
    exact tipMarkers_append _ _ _ _
  · rw [hclient]
    intro p hp
    rcases QMap.mem_insert hp with hp | hp
    · subst hp; exact hplain
    · exact hkeys p hp
  · rw [hclient]
    show (w.client.m_snapshots ++ [_]).length = _
    rw [hserver, List.length_append, List.length_append, hlen]
    rfl
  · rw [lastMarkers_of_append _ _ snap hserver, hsnap, hclient]
    show List.Perm _ ((QMap.values (QMap.insert w.client.m_currentMarkers marker.id marker)).map
      fun m => Marker.fromJson (Marker.toJson m))
    have hv : List.Perm (QMap.values (QMap.insert w.client.m_currentMarkers marker.id marker))
        (marker :: QMap.values w.client.m_currentMarkers) :=
      (QMap.perm_insert_of_not_contains marker hfresh).map Prod.snd
    refine List.Perm.trans ?_ (hv.map _).symm
    exact List.perm_append_singleton _ _ |>.trans (List.Perm.cons _ hperm)

theorem deleteMarker_result_false (s : MarkerManager) (markerId deletedBy : QString) (e : Env)
    (h : QMap.contains s.m_currentMarkers markerId = false) :
    (MarkerManager.deleteMarker s markerId deletedBy e).1 = false := by
  unfold MarkerManager.deleteMarker
  rw [if_pos (by simp [h])]

theorem inStep_delete (encodePath : QString → QString) (hlaw : WritesPlainPaths encodePath)
    (w : Session) (h : InStep w) (markerId : QString) (clientEnv serverEnv : Env) :
    InStep (MainWindow.onDeleteMarkerRequested encodePath w markerId clientEnv serverEnv) := by
  obtain ⟨hc, ht, htip, hkeys, hlen, hperm⟩ := h
  unfold MainWindow.onDeleteMarkerRequested
  split_ifs with hok
  swap
  · exact ⟨hc, ht, htip, hkeys, hlen, hperm⟩
  have hid : QMap.contains w.client.m_currentMarkers markerId = true := by
    by_contra hn
    have hf : QMap.contains w.client.m_currentMarkers markerId = false := by simpa using hn
    rw [deleteMarker_result_false _ _ _ _ hf] at hok
    cases hok
  have hclient := MarkerManager.deleteMarker_atTip_eq w.client hc ht markerId
    MainWindow.currentUser clientEnv hid
  have hco := MarkerManager.coherent_deleteMarker w.client markerId MainWindow.currentUser
    clientEnv hc
  obtain ⟨v, hv⟩ := QMap.find?_isSome_of_contains hid
  obtain ⟨p, hp, hp1, hp2⟩ := QMap.mem_of_find? hv
  have hplain : markerId.all idUnit = true := by rw [← hp1]; exact hkeys p hp
  rw [deletePath_eq, onRequestReady_plain encodePath hlaw _ "DELETE" _ (by decide)
    (deletePath_plain markerId hplain)]
  have hvid : v.id = markerId := by rw [← hp2, ← hc.1.2 p hp, hp1]
  have hvmem : v ∈ QMap.values w.client.m_currentMarkers := by
    rw [← hp2]
    exact List.mem_map_of_mem _ hp
  have hsmem : Marker.fromJson (Marker.toJson v) ∈ w.server.lastMarkers :=
    hperm.symm.subset (List.mem_map_of_mem _ hvmem)
  have hsome : ∃ d r, HttpServer.removeFirst markerId w.server.lastMarkers = some (d, r) := by
    rcases hrem : HttpServer.removeFirst markerId w.server.lastMarkers with _ | ⟨d, r⟩
    · exact absurd (show (Marker.fromJson (Marker.toJson v)).id = markerId from hvid)
        (HttpServer.removeFirst_none.1 hrem _ hsmem)
    · exact ⟨d, r, rfl⟩
  obtain ⟨d, r, hrem⟩ := hsome
  have hids : (w.server.lastMarkers.map Marker.id).Nodup := by
    have hpm := hperm.map Marker.id
    rw [List.map_map] at hpm
    exact (List.Perm.nodup_iff hpm).2 (values_ids_nodup _ hc.1)
  have hr := HttpServer.removeFirst_eq_filter hids hrem
  obtain ⟨snap, hsnap, hserver⟩ :=
    HttpServer.delete_snapshots w.server markerId .null serverEnv d r hrem
  refine ⟨hco, ?_, ?_, ?_, ?_, ?_⟩
  · rw [hclient]
    simp [MarkerManager.AtTip]
  · rw [hclient]
    exact tipMarkers_append _ _ _ _
  · rw [hclient]
    intro q hq
    exact hkeys q (List.mem_of_mem_filter hq)
  · rw [hclient]
    show (w.client.m_snapshots ++ [_]).length = _
    rw [hserver, List.length_append, List.length_append, hlen]
    rfl
  · rw [lastMarkers_of_append _ _ snap hserver, hsnap, hclient, hr]
    show List.Perm _ ((QMap.values (QMap.remove w.client.m_currentMarkers markerId)).map
      fun m => Marker.fromJson (Marker.toJson m))
    rw [values_remove_of_keyed _ hc.1.2]
    have hf := hperm.filter (fun x => decide (x.id ≠ markerId))
    refine hf.trans ?_
    rw [List.filter_map]
    exact List.Perm.refl _

theorem inStep_apply (encodePath : QString → QString) (hlaw : WritesPlainPaths encodePath)
    (w : Session) (h : InStep w) (edit : Edit)
    (hfresh : freshAdds encodePath w [edit] = true) (hplain : edit.plainId = true) :
    InStep (apply encodePath w edit) := by
  cases edit with
  | add marker clientEnv serverEnv =>
    have hf : QMap.contains w.client.m_currentMarkers marker.id = false := by
      simpa [freshAdds] using hfresh
    exact inStep_add encodePath hlaw w h marker clientEnv serverEnv hf hplain
  | delete markerId clientEnv serverEnv =>
    exact inStep_delete encodePath hlaw w h markerId clientEnv serverEnv

theorem inStep_run (encodePath : QString → QString) (hlaw : WritesPlainPaths encodePath)
    (edits : List Edit) (w : Session) (h : InStep w)
    (hfresh : freshAdds encodePath w edits = true) (hplain : edits.all Edit.plainId = true) :
    InStep (run encodePath w edits) := by
  induction edits generalizing w with
  | nil => exact h
  | cons edit rest ih =>
    have h1 : freshAdds encodePath w [edit] = true ∧
        freshAdds encodePath (apply encodePath w edit) rest = true := by
      cases edit <;> simpa [freshAdds] using hfresh
    have h2 : edit.plainId = true ∧ rest.all Edit.plainId = true := by
      simpa [List.all_cons] using hplain
    exact ih (apply encodePath w edit)
      (inStep_apply encodePath hlaw w h edit h1.1 h2.1) h1.2 h2.2

theorem freshAdds_take (encodePath : QString → QString) (edits : List Edit) (w : Session)
    (k : Nat) (hfresh : freshAdds encodePath w edits = true) :
    freshAdds encodePath w (edits.take k) = true := by
  induction edits generalizing w k with
  | nil => simp [freshAdds]
  | cons edit rest ih =>
    cases k with
    | zero => simp [freshAdds]
    | succ k =>
      have h1 : freshAdds encodePath w [edit] = true ∧
          freshAdds encodePath (apply encodePath w edit) rest = true := by
        cases edit <;> simpa [freshAdds] using hfresh
      have h2 := ih (apply encodePath w edit) k h1.2
      cases edit <;> simp_all [freshAdds]

theorem plainId_take (edits : List Edit) (k : Nat) (h : edits.all Edit.plainId = true) :
    (edits.take k).all Edit.plainId = true := by
  rw [List.all_eq_true] at h ⊢
  intro x hx
  exact h x (List.mem_of_mem_take hx)

theorem percentEncode_plain : WritesPlainPaths percentEncode := by
  intro path hpath
  induction path with
  | nil => rfl
  | cons c cs ih =>
    have hc : pathUnit c = true := by
      have := List.all_eq_true.1 hpath c (List.mem_cons_self _ _)
      exact this
    have hcs : cs.all pathUnit = true := by
      rw [List.all_eq_true] at hpath ⊢
      intro x hx
      exact hpath x (List.mem_cons_of_mem _ hx)
    unfold percentEncode at ih ⊢
    rw [List.flatMap_cons, ih hcs]
    simp [hc]

end Session

namespace Session

/-- Claim C23, as the code has it: start from the constructed manager and a server
with an empty log, and let the window handle any sequence of add and delete
edits in which every added marker has an id that is not bound in the working
marker map at that time and that consists of ASCII letters, digits, `-` and
`_` only, the units of the ids `Marker::generateId` makes. The requests reach
the server through `onRequestReady`, which cuts the request line at spaces; of
the text QUrl writes for a path only this is assumed, that a path of such
units and `/` is written as it is. After each edit the client is at its tip,
the two histories have the same length, and the last snapshot of the server
holds, in some order, the markers of the newest client snapshot as their JSON
form denotes them (`Marker::fromJson` of `Marker::toJson`). So both hold the
same ids, and the same markers whenever every marker of the client snapshot is
the one its JSON form denotes. -/
theorem mirrored_edits_in_step (encodePath : QString → QString)
    (hlaw : WritesPlainPaths encodePath) (dataFile : Option QJsonDocument)
    (edits : List Edit) (hfresh : freshAdds encodePath (start dataFile) edits = true)
    (hplain : edits.all Edit.plainId = true) (k : Nat) :
    MarkerManager.AtTip (run encodePath (start dataFile) (edits.take k)).client ∧
      (run encodePath (start dataFile) (edits.take k)).client.m_snapshots.length
        = (run encodePath (start dataFile) (edits.take k)).server.m_snapshots.length ∧
      List.Perm (run encodePath (start dataFile) (edits.take k)).server.lastMarkers
        ((run encodePath (start dataFile) (edits.take k)).client.tipMarkers.map
          fun m => Marker.fromJson (Marker.toJson m)) ∧
      List.Perm
        ((run encodePath (start dataFile) (edits.take k)).server.lastMarkers.map Marker.id)
        ((run encodePath (start dataFile) (edits.take k)).client.tipMarkers.map Marker.id) ∧
      ((∀ m ∈ (run encodePath (start dataFile) (edits.take k)).client.tipMarkers,
          Marker.fromJson (Marker.toJson m) = m) →
        List.Perm (run encodePath (start dataFile) (edits.take k)).server.lastMarkers
          (run encodePath (start dataFile) (edits.take k)).client.tipMarkers) := by
  have h := inStep_run encodePath hlaw (edits.take k) (start dataFile) (inStep_start dataFile)
    (freshAdds_take encodePath edits _ k hfresh) (plainId_take edits k hplain)
  obtain ⟨_, ht, htip, _, hlen, hperm⟩ := h
  rw [← htip] at hperm
  refine ⟨ht, hlen, hperm, ?_, ?_⟩
  · have hp := hperm.map Marker.id
    rw [List.map_map] at hp
    exact hp
  · intro hstable
    have hid : (run encodePath (start dataFile) (edits.take k)).client.tipMarkers.map
        (fun m => Marker.fromJson (Marker.toJson m))
        = (run encodePath (start dataFile) (edits.take k)).client.tipMarkers := by
      conv_rhs =>
        rw [← List.map_id (run encodePath (start dataFile) (edits.take k)).client.tipMarkers]
      exact List.map_congr_left hstable
    rw [hid] at hperm
    exact hperm

/-- Witness for C23, with a path writer that percent-encodes: add marker `m1`, add
marker `m2`, delete marker `m1`; afterwards both histories have three snapshots
and both newest snapshots hold marker `m2` and nothing else. -/
theorem mirrored_edits_in_step_witness :
    WritesPlainPaths percentEncode ∧
      freshAdds percentEncode (start none) sampleEdits = true ∧
      sampleEdits.all Edit.plainId = true ∧
      (run percentEncode (start none) (sampleEdits.take 3)).client.m_snapshots.length = 3 ∧
      (run percentEncode (start none) (sampleEdits.take 3)).server.m_snapshots.length = 3 ∧
      (run percentEncode (start none) (sampleEdits.take 3)).client.tipMarkers
        = [plainMarker 2] ∧
      (run percentEncode (start none) (sampleEdits.take 3)).server.lastMarkers
        = [plainMarker 2] ∧
      List.Perm (run percentEncode (start none) (sampleEdits.take 3)).server.lastMarkers
        (run percentEncode (start none) (sampleEdits.take 3)).client.tipMarkers :=
  have h := mirrored_edits_in_step percentEncode percentEncode_plain none sampleEdits
    (by decide) (by decide) 3
  ⟨percentEncode_plain, by decide, by decide, by decide, by rw [← h.2.1]; decide, by decide,
    by decide, h.2.2.2.2 (by decide)⟩

/-- Counterexample to claim C23 as stated, in two runs from the empty client and the
empty server, every added id being fresh. First run: one edit adds the marker
`m9`, created at half past a second with a half transparent colour. Both
histories then have one snapshot; the client snapshot holds that marker, the
server snapshot holds a marker with the same id but a time of whole seconds
and an opaque colour, so the marker of the client is not among the markers of
the server. Second run: the marker with the id `a b` is added and then
deleted. Written as it is, the path of the delete request is cut at the space
of the id; percent-encoded, it holds `%20` in place of the space, and the
server compares it undecoded. Either way the server finds no such marker and
appends nothing, so the client has two snapshots, the newest empty, and the
server one snapshot, which still holds the marker. -/
theorem mirrored_edits_counterexample :
    (freshAdds percentEncode (start none)
        [.add sampleStampedMarker (sampleEnv 1) (sampleEnv 2)] = true ∧
      [Edit.add sampleStampedMarker (sampleEnv 1) (sampleEnv 2)].all Edit.plainId = true ∧
      (run percentEncode (start none)
        [.add sampleStampedMarker (sampleEnv 1) (sampleEnv 2)]).client.m_snapshots.length = 1 ∧
      (run percentEncode (start none)
        [.add sampleStampedMarker (sampleEnv 1) (sampleEnv 2)]).server.m_snapshots.length = 1 ∧
      (run percentEncode (start none)
        [.add sampleStampedMarker (sampleEnv 1) (sampleEnv 2)]).client.tipMarkers
          = [sampleStampedMarker] ∧
      (run percentEncode (start none)
        [.add sampleStampedMarker (sampleEnv 1) (sampleEnv 2)]).server.lastMarkers
          = [{ sampleStampedMarker with
                color := ⟨true, 65535, 65535, 0, 0⟩
                createTime := ⟨true, 1704067200000⟩ }] ∧
      sampleStampedMarker ∉ (run percentEncode (start none)
        [.add sampleStampedMarker (sampleEnv 1) (sampleEnv 2)]).server.lastMarkers) ∧
    (freshAdds percentEncode (start none) sampleSpacedEdits = true ∧
      freshAdds id (start none) sampleSpacedEdits = true ∧
      requestLine percentEncode "DELETE"
          (ApiClient.buildPath (utf16 "/map/markers/" ++ sampleSpacedMarker.id))
        = utf16 "DELETE /api/map/markers/a%20b HTTP/1.1" ∧
      (run percentEncode (start none) sampleSpacedEdits).client.m_snapshots.length = 2 ∧
      (run percentEncode (start none) sampleSpacedEdits).server.m_snapshots.length = 1 ∧
      (run percentEncode (start none) sampleSpacedEdits).client.tipMarkers = [] ∧
      (run percentEncode (start none) sampleSpacedEdits).server.lastMarkers
        = [sampleSpacedMarker] ∧
      (run id (start none) sampleSpacedEdits).client.m_snapshots.length = 2 ∧
      (run id (start none) sampleSpacedEdits).server.m_snapshots.length = 1 ∧
      (run id (start none) sampleSpacedEdits).server.lastMarkers = [sampleSpacedMarker]) := by
  decide

end Session

/-! ## What a mutation at the tip does to the marker set -/

namespace QMap

variable {K V : Type} [LinearOrder K]

theorem mem_insert_iff_of_sorted {m : QMap K V} (k : K) (v : V)
    (hm : m.Pairwise (fun a b => a.1 < b.1)) (p : K × V) :
    p ∈ insert m k v ↔ p = (k, v) ∨ (p ∈ m ∧ p.1 ≠ k) := by
  induction m with
  | nil => simp [insert]
  | cons hd tl ih =>
    obtain ⟨k1, v1⟩ := hd
    rw [List.pairwise_cons] at hm
    obtain ⟨hlt, htl⟩ := hm
    unfold insert
    split_ifs with h1 h2
    · constructor
      · intro hp
        rcases List.mem_cons.1 hp with hp | hp
        · exact Or.inl hp
        · refine Or.inr ⟨hp, ?_⟩
          rcases List.mem_cons.1 hp with hp | hp
          · subst hp; exact ne_of_gt h1
          · exact ne_of_gt (lt_trans h1 (hlt p hp))
      · rintro (hp | ⟨hp, _⟩)
        · subst hp; exact List.mem_cons_self _ _
        · exact List.mem_cons_of_mem _ hp
    · subst h2
      constructor
      · intro hp
        rcases List.mem_cons.1 hp with hp | hp
        · exact Or.inl hp
        · exact Or.inr ⟨List.mem_cons_of_mem _ hp, ne_of_gt (hlt p hp)⟩
      · rintro (hp | ⟨hp, hne⟩)
        · subst hp; exact List.mem_cons_self _ _
        · rcases List.mem_cons.1 hp with hp | hp
          · subst hp; exact absurd rfl hne
          · exact List.mem_cons_of_mem _ hp
    · constructor
      · intro hp
        rcases List.mem_cons.1 hp with hp | hp
        · subst hp
          exact Or.inr ⟨List.mem_cons_self _ _, fun h => h2 h.symm⟩
        · rcases (ih htl).1 hp with hp | ⟨hp, hne⟩
          · exact Or.inl hp
          · exact Or.inr ⟨List.mem_cons_of_mem _ hp, hne⟩
      · rintro (hp | ⟨hp, hne⟩)
        · exact List.mem_cons_of_mem _ ((ih htl).2 (Or.inl hp))
        · rcases List.mem_cons.1 hp with hp | hp
          · subst hp; exact List.mem_cons_self _ _
          · exact List.mem_cons_of_mem _ ((ih htl).2 (Or.inr ⟨hp, hne⟩))

end QMap

theorem mem_values_insert {m : QMap QString Marker} (h : MapWF m) (M x : Marker) :
    x ∈ QMap.values (QMap.insert m M.id M) ↔
      x = M ∨ (x ∈ QMap.values m ∧ x.id ≠ M.id) := by
  unfold QMap.values
  constructor
  · intro hx
    obtain ⟨p, hp, hpx⟩ := List.mem_map.1 hx
    rcases (QMap.mem_insert_iff_of_sorted M.id M h.1 p).1 hp with hp | ⟨hp, hne⟩
    · subst hp; exact Or.inl hpx.symm
    · refine Or.inr ⟨List.mem_map.2 ⟨p, hp, hpx⟩, ?_⟩
      rw [← hpx, ← h.2 p hp]
      exact hne
  · rintro (hx | ⟨hx, hne⟩)
    · subst hx
      exact List.mem_map.2 ⟨(x.id, x),
        (QMap.mem_insert_iff_of_sorted x.id x h.1 _).2 (Or.inl rfl), rfl⟩
    · obtain ⟨p, hp, hpx⟩ := List.mem_map.1 hx
      refine List.mem_map.2 ⟨p, (QMap.mem_insert_iff_of_sorted M.id M h.1 p).2
        (Or.inr ⟨hp, ?_⟩), hpx⟩
      rw [h.2 p hp, hpx]
      exact hne

theorem mem_of_mem_foldl_insert (l : List Marker) (acc : QMap QString Marker)
    (p : QString × Marker)
    (hp : p ∈ l.foldl (fun m marker => QMap.insert m marker.id marker) acc) :
    p ∈ acc ∨ p.2 ∈ l := by
  induction l generalizing acc with
  | nil => exact Or.inl hp
  | cons x xs ih =>
    rcases ih _ hp with h | h
    · rcases QMap.mem_insert h with h | h
      · subst h; exact Or.inr (List.mem_cons_self _ _)
      · exact Or.inl h
    · exact Or.inr (List.mem_cons_of_mem _ h)

theorem mem_of_mem_values_markersToMap (l : List Marker) (x : Marker)
    (hx : x ∈ QMap.values (markersToMap l)) : x ∈ l := by
  obtain ⟨p, hp, hpx⟩ := List.mem_map.1 hx
  rcases mem_of_mem_foldl_insert l [] p hp with h | h
  · cases h
  · rw [← hpx]; exact h

namespace MarkerManager

theorem mem_currentMarkers_of_mem_values (s : MarkerManager) (hr : Reachable s) (x : Marker)
    (hx : x ∈ QMap.values s.m_currentMarkers) : x ∈ currentMarkers s := by
  have hc := reachable_coherent hr
  by_cases hv : 0 ≤ s.m_currentSnapshotIndex ∧
      s.m_currentSnapshotIndex < (s.m_snapshots.length : Int)
  · obtain ⟨snap, hsnap⟩ := exists_snapshot_at s _ hv.1 hv.2
    rw [currentMarkers_of_valid s snap hv.1 hsnap]
    rw [hc.2 snap hv.1 hsnap] at hx
    exact mem_of_mem_values_markersToMap _ _ hx
  · unfold currentMarkers
    rw [dif_neg hv]
    exact hx

theorem exists_value_of_mem_currentMarkers (s : MarkerManager) (hr : Reachable s) (x : Marker)
    (hx : x ∈ currentMarkers s) : ∃ y ∈ QMap.values s.m_currentMarkers, y.id = x.id := by
  have hc := reachable_coherent hr
  have hcont : QMap.contains s.m_currentMarkers x.id = true := by
    rw [live_ids_agree s hr x.id, List.any_eq_true]
    exact ⟨x, hx, by simp⟩
  obtain ⟨v, hv⟩ := QMap.find?_isSome_of_contains hcont
  obtain ⟨p, hp, hp1, hp2⟩ := QMap.mem_of_find? hv
  refine ⟨v, ?_, ?_⟩
  · rw [← hp2]; exact List.mem_map_of_mem _ hp
  · rw [← hp2, ← hc.1.2 p hp, hp1]

/-- Claim C3: in every reachable state that is AtTip (`cursor = len(history) - 1`),
`addMarker(M)` and `deleteMarker(id)` with `id` in the working marker map return
success, append exactly one snapshot to the history and put the cursor on the
new last index. After `addMarker(M)` the appended snapshot holds `M` and, of the
markers that were live, exactly those with another id; after `deleteMarker(id)`
it holds no marker with that id and, in their order, exactly the markers that
were live under another id. In both cases no two markers of the appended
snapshot share an id, the working marker map is the previous one with `M` bound
to `M.id`, respectively with `id` unbound, and the markers of the appended
snapshot are the values of that map and what `currentMarkers()` returns. -/
theorem atTip_mutation_appends_one (s : MarkerManager) (hr : Reachable s) (ht : AtTip s)
    (actor : QString) (e : Env) :
    (∀ M : Marker, ∃ snap : MapSnapshot,
      (addMarker s M actor e).1 = true ∧
      (addMarker s M actor e).2.m_snapshots = s.m_snapshots ++ [snap] ∧
      (addMarker s M actor e).2.m_currentSnapshotIndex
        = ((addMarker s M actor e).2.m_snapshots.length : Int) - 1 ∧
      (addMarker s M actor e).2.m_currentMarkers = QMap.insert s.m_currentMarkers M.id M ∧
      snap.markers = QMap.values (addMarker s M actor e).2.m_currentMarkers ∧
      currentMarkers (addMarker s M actor e).2 = snap.markers ∧
      M ∈ snap.markers ∧
      (∀ m, m ∈ snap.markers ↔
        m = M ∨ (m ∈ QMap.values s.m_currentMarkers ∧ m.id ≠ M.id)) ∧
      (∀ m ∈ snap.markers, m = M ∨ (m ∈ currentMarkers s ∧ m.id ≠ M.id)) ∧
      (∀ m ∈ currentMarkers s, m.id ≠ M.id → ∃ m2 ∈ snap.markers, m2.id = m.id) ∧
      (snap.markers.map Marker.id).Nodup ∧
      QMap.find? (addMarker s M actor e).2.m_currentMarkers M.id = some M ∧
      (∀ k, k ≠ M.id → QMap.find? (addMarker s M actor e).2.m_currentMarkers k
        = QMap.find? s.m_currentMarkers k)) ∧
    (∀ id : QString, QMap.contains s.m_currentMarkers id = true → ∃ snap : MapSnapshot,
      (deleteMarker s id actor e).1 = true ∧
      (deleteMarker s id actor e).2.m_snapshots = s.m_snapshots ++ [snap] ∧
      (deleteMarker s id actor e).2.m_currentSnapshotIndex
        = ((deleteMarker s id actor e).2.m_snapshots.length : Int) - 1 ∧
      (deleteMarker s id actor e).2.m_currentMarkers = QMap.remove s.m_currentMarkers id ∧
      snap.markers = QMap.values (deleteMarker s id actor e).2.m_currentMarkers ∧
      currentMarkers (deleteMarker s id actor e).2 = snap.markers ∧
      (∀ m ∈ snap.markers, m.id ≠ id ∧ m ∈ currentMarkers s) ∧
      snap.markers = (QMap.values s.m_currentMarkers).filter (fun m => decide (m.id ≠ id)) ∧
      (∀ m ∈ currentMarkers s, m.id ≠ id → ∃ m2 ∈ snap.markers, m2.id = m.id) ∧
      (∃ removed ∈ currentMarkers s, removed.id = id) ∧
      (snap.markers.map Marker.id).Nodup ∧
      QMap.find? (deleteMarker s id actor e).2.m_currentMarkers id = none ∧
      (∀ k, k ≠ id → QMap.find? (deleteMarker s id actor e).2.m_currentMarkers k
        = QMap.find? s.m_currentMarkers k)) := by
  have hc := reachable_coherent hr
  constructor
  · intro M
    have hmem := mem_values_insert hc.1 M
    rw [addMarker_atTip_eq s hc ht M actor e]
    refine ⟨_, rfl, rfl, by simp, rfl, rfl, ?_, ?_, ?_, ?_, ?_, ?_, ?_, ?_⟩
    · simp [currentMarkers, MapSnapshot.create]
    · exact (hmem M).2 (Or.inl rfl)
    · exact hmem
    · intro m hm
      rcases (hmem m).1 hm with h | ⟨h, hne⟩
      · exact Or.inl h
      · exact Or.inr ⟨mem_currentMarkers_of_mem_values s hr m h, hne⟩
    · intro m hm hne
      obtain ⟨y, hy, hyid⟩ := exists_value_of_mem_currentMarkers s hr m hm
      exact ⟨y, (hmem y).2 (Or.inr ⟨hy, by rw [hyid]; exact hne⟩), hyid⟩
    · exact values_ids_nodup _ (mapWF_insert M hc.1)
    · show QMap.find? (QMap.insert s.m_currentMarkers M.id M) M.id = some M
      rw [QMap.find?_insert, if_pos rfl]
    · intro k hk
      show QMap.find? (QMap.insert s.m_currentMarkers M.id M) k = _
      rw [QMap.find?_insert, if_neg hk]
  · intro id hid
    have hfilter := values_remove_of_keyed s.m_currentMarkers hc.1.2 id
    rw [deleteMarker_atTip_eq s hc ht id actor e hid]
    refine ⟨_, rfl, rfl, by simp, rfl, rfl, ?_, ?_, ?_, ?_, ?_, ?_, ?_, ?_⟩
    · simp [currentMarkers, MapSnapshot.create]
    · intro m hm
      have hm2 : m ∈ (QMap.values s.m_currentMarkers).filter
          (fun m => decide (m.id ≠ id)) := by
        rw [← hfilter]; exact hm
      rw [List.mem_filter] at hm2
      exact ⟨by simpa using hm2.2, mem_currentMarkers_of_mem_values s hr m hm2.1⟩
    · exact hfilter
    · intro m hm hne
      obtain ⟨y, hy, hyid⟩ := exists_value_of_mem_currentMarkers s hr m hm
      refine ⟨y, ?_, hyid⟩
      show y ∈ QMap.values (QMap.remove s.m_currentMarkers id)
      rw [hfilter, List.mem_filter]
      exact ⟨hy, by rw [hyid]; simpa using hne⟩
    · have hany := live_ids_agree s hr id
      rw [hid] at hany
      obtain ⟨x, hx, hxid⟩ := List.any_eq_true.1 hany.symm
      exact ⟨x, hx, by simpa using hxid⟩
    · exact values_ids_nodup _ (mapWF_remove id hc.1)
    · show QMap.find? (QMap.remove s.m_currentMarkers id) id = none
      rw [QMap.find?_remove, if_pos rfl]
    · intro k hk
      show QMap.find? (QMap.remove s.m_currentMarkers id) k = _
      rw [QMap.find?_remove, if_neg hk]

/-- Witness for C3: the log after two `addMarker` calls, which holds markers 1 and
2, is reachable and AtTip. Adding marker 3 leaves the markers of the three
snapshots as 1; 1, 2; 1, 2, 3. Deleting marker 1 leaves them as 1; 1, 2; 2:
the live markers are then marker 2 alone, none of them has the id of marker 1,
and that id is not bound in the working marker map. -/
theorem atTip_mutation_appends_one_witness :
    Reachable sampleLog2 ∧ AtTip sampleLog2 ∧
      QMap.contains sampleLog2.m_currentMarkers (sampleMarker 1).id = true ∧
      (addMarker sampleLog2 (sampleMarker 3) [] (sampleEnv 3)).2.m_snapshots.map
          MapSnapshot.markers
        = [[sampleMarker 1], [sampleMarker 1, sampleMarker 2],
            [sampleMarker 1, sampleMarker 2, sampleMarker 3]] ∧
      sampleMarker 3 ∈ currentMarkers (addMarker sampleLog2 (sampleMarker 3) [] (sampleEnv 3)).2 ∧
      (deleteMarker sampleLog2 (sampleMarker 1).id [] (sampleEnv 3)).2.m_snapshots.map
          MapSnapshot.markers
        = [[sampleMarker 1], [sampleMarker 1, sampleMarker 2], [sampleMarker 2]] ∧
      currentMarkers (deleteMarker sampleLog2 (sampleMarker 1).id [] (sampleEnv 3)).2
        = [sampleMarker 2] ∧
      (∀ m ∈ currentMarkers (deleteMarker sampleLog2 (sampleMarker 1).id [] (sampleEnv 3)).2,
        m.id ≠ (sampleMarker 1).id) ∧
      QMap.contains (deleteMarker sampleLog2 (sampleMarker 1).id [] (sampleEnv 3)).2.m_currentMarkers
        (sampleMarker 1).id = false :=
  have hr : Reachable sampleLog2 := Reachable.add _ _ _ _ (Reachable.add _ _ _ _ Reachable.start)
  have ht : AtTip sampleLog2 := by decide
  have h := atTip_mutation_appends_one sampleLog2 hr ht [] (sampleEnv 3)
  ⟨hr, ht, by decide, by decide,
    by
      obtain ⟨snap, _, _, _, _, _, h6, h7, _⟩ := h.1 (sampleMarker 3)
      rw [h6]
      exact h7,
    by decide, by decide,
    by
      obtain ⟨snap, _, _, _, _, _, h6, h7, _⟩ := h.2 (sampleMarker 1).id (by decide)
      rw [h6]
      exact fun m hm => (h7 m hm).1,
    by decide⟩

end MarkerManager
